import Mathlib

/-!
# Verification of the kept-cold-backend job/time-tracking/route state machine

Shallow embedding of the core handlers of `src/routes.ts` (the second, current
`registerRoutes` version, lines 1846-5379) and `src/lib/helperFuntions.ts`.

Conventions of the embedding:
* Timestamps are integers (milliseconds since epoch), standing for the JS
  `Date` values; `Date.now()` / `new Date().toISOString()` become an explicit
  `now : Int` parameter threaded into each handler.
* The record store (Supabase) is modelled as in the spec's collaborator
  interface: lists of rows with filtered `find?` reads, mapped updates, and a
  conditional update that applies only to rows matching a predicate and
  returns the updated row or `none`.  Store I/O never fails in the model.
* The external driving-distance lookup and the engineer's wall clock are
  inputs (`Option ℚ` and a pre-rendered `"HH:MM"` string respectively).
  The floating-point haversine fallback value also enters the `start-job`
  handler as an oracle input; the real-valued haversine formula itself is
  embedded separately as `calculateDistance` over `ℝ`.
* HTTP responses become inductive result types, one per handler, mirroring
  the handler's `res.status(...).json(...)` branches.
-/

namespace KeptCold

/-- Milliseconds since the Unix epoch, the value of `Date.getTime()`. -/
abbrev Timestamp := Int

/-- `Math.floor((later - earlier) / 1000 / 60)`: elapsed whole minutes between
two millisecond timestamps, rounding toward minus infinity as JS
`Math.floor` does. -/
def minutesBetween (later earlier : Timestamp) : Int :=
  Int.fdiv (later - earlier) 60000

/-! ## Job-status classifiers (`src/lib/helperFuntions.ts`) -/

/-- JS `String.prototype.toLowerCase()` (ASCII-faithful), defined by mapping
`Char.toLower` over the characters so that it reduces inside `decide`. -/
def jsToLower (s : String) : String := String.mk (s.data.map Char.toLower)

/-- `isJobCompleted` from `helperFuntions.ts`: null/empty is not completed;
otherwise lower-case membership in the completed-equivalent list. -/
def isJobCompleted (jobStatus : Option String) : Bool :=
  match jobStatus with
  | none => false
  | some st =>
    if st = "" then false
    else ["completed", "invoiced", "1streminder", "2ndreminder", "paid"].contains
      (jsToLower st)

/-- `isJobInProgress` from `helperFuntions.ts`. -/
def isJobInProgress (jobStatus : Option String) : Bool :=
  match jobStatus with
  | none => false
  | some st =>
    if st = "" then false
    else jsToLower st = "in progress" || jsToLower st = "inprogress"

/-! ## Opening-hours parser (`isWithinOpeningHours`, routes.ts 2807-2854)

The JS function extracts time tokens with the global regex
`/(\d{1,2}):?(\d{2})?\s*(AM|PM)?/gi` via `matchAll`.  The scanner below
reproduces that regex's matching exactly: a mandatory 1-2 digit group
(greedy), an optional `:`, an optional 2-digit group, greedy whitespace,
and an optional case-insensitive AM/PM group. -/

/-- One match of the time-token regex: the captured groups. -/
structure TimeTok where
  g1 : List Char
  g2 : Option (List Char)
  g3 : Option (Char × Char)
deriving Repr, DecidableEq

/-- `parseInt` on a string of decimal digits. -/
def digitsValAux (acc : Nat) : List Char → Nat
  | [] => acc
  | c :: cs => digitsValAux (acc * 10 + (c.toNat - 48)) cs

/-- `parseInt` on a captured digit group. -/
def digitsVal (l : List Char) : Nat := digitsValAux 0 l

/-- Match the optional `(AM|PM)?` group (case-insensitive) at the head. -/
def matchAmPm : List Char → Option ((Char × Char) × List Char)
  | a :: b :: r =>
    if (a.toUpper = 'A' ∨ a.toUpper = 'P') ∧ b.toUpper = 'M' then
      some ((a, b), r)
    else none
  | _ => none

/-- Attempt to match `(\d{1,2}):?(\d{2})?\s*(AM|PM)?` at the current
position; on success return the token and the remainder of the input after
the whole match (whitespace consumed by `\s*` is part of the match even when
the AM/PM group is absent, exactly as in the regex). -/
def matchAt : List Char → Option (TimeTok × List Char)
  | [] => none
  | c :: cs =>
    if c.isDigit then
      let p1 : List Char × List Char :=
        match cs with
        | d :: r => if d.isDigit then ([c, d], r) else ([c], cs)
        | [] => ([c], [])
      let r2 : List Char :=
        match p1.2 with
        | ':' :: r => r
        | l => l
      let p2 : Option (List Char) × List Char :=
        match r2 with
        | a :: b :: r => if a.isDigit ∧ b.isDigit then (some [a, b], r) else (none, r2)
        | l => (none, l)
      let r4 := p2.2.dropWhile (fun ch => ch.isWhitespace)
      match matchAmPm r4 with
      | some (g3, r5) => some (⟨p1.1, p2.1, some g3⟩, r5)
      | none => some (⟨p1.1, p2.1, none⟩, r4)
    else none

/-- Fuel-indexed `matchAll` scan: at each position try the pattern, emit the
match and continue after it, else advance one character.  The fuel (the input
length at the top-level call) bounds the recursion; every step strictly
shrinks the input so the fuel is never exhausted early. -/
def scanAux : Nat → List Char → List TimeTok
  | 0, _ => []
  | _ + 1, [] => []
  | fuel + 1, c :: cs =>
    match matchAt (c :: cs) with
    | some (t, rest) => t :: scanAux fuel rest
    | none => scanAux fuel cs

/-- All matches of the time-token regex, in order. -/
def scanTokens (l : List Char) : List TimeTok := scanAux l.length l

/-- The 24-hour conversion applied to a parsed hour: `+12` when a PM marker is
present and the hour is not 12, then `→ 0` when an AM marker is present and
the hour is 12 (routes.ts 2830-2837). -/
def convHour (g3 : Option (Char × Char)) (h : Nat) : Nat :=
  let up := g3.map (fun p => (p.1.toUpper, p.2.toUpper))
  let h1 := if up = some ('P', 'M') ∧ h ≠ 12 then h + 12 else h
  if up = some ('A', 'M') ∧ h1 = 12 then 0 else h1

/-- `String(n).padStart(2, "0")`. -/
def pad2 (n : Nat) : String :=
  let s := toString n
  if s.length < 2 then "0" ++ s else s

/-- Render an `HH:MM` time string as the handler does. -/
def renderTime (h m : Nat) : String := pad2 h ++ ":" ++ pad2 m

/-- Hour value of a token (`parseInt(matches[i][1])`). -/
def tokHour (t : TimeTok) : Nat := digitsVal t.g1

/-- Minute value of a token (`parseInt(matches[i][2] || "0")`). -/
def tokMin (t : TimeTok) : Nat := digitsVal (t.g2.getD ['0'])

/-- JS string `<=` comparison: lexicographic on code units. -/
def lexLe : List Char → List Char → Bool
  | [], _ => true
  | _ :: _, [] => false
  | a :: as, b :: bs =>
    if a.toNat < b.toNat then true
    else if b.toNat < a.toNat then false
    else lexLe as bs

/-- JS `a <= b` on strings. -/
def jsStrLe (a b : String) : Bool := lexLe a.data b.data

/-- The rendered window start string of a parsed opening-hours value. -/
def windowStart (t : TimeTok) : String :=
  renderTime (convHour t.g3 (tokHour t)) (tokMin t)

/-- `isWithinOpeningHours` (routes.ts 2807-2854).  The wall-clock string
`currentTime` (the JS `now.toLocaleTimeString("en-US", ...)` value, `"HH:MM"`)
is an explicit parameter.  The JS `try`/`catch` never fires in the model: all
parse steps here are total, so the catch-arm's fail-open `true` has no
counterpart. -/
def isWithinOpeningHours (currentTime : String) (openingHours : String) : Bool :=
  if openingHours = "" ∨ openingHours = "Time not specified" then true
  else
    match scanTokens openingHours.data with
    | t1 :: t2 :: _ =>
      jsStrLe (windowStart t1) currentTime && jsStrLe currentTime (windowStart t2)
    | _ => true

/-- Number of time tokens the regex finds in an opening-hours string. -/
def tokenCount (s : String) : Nat := (scanTokens s.data).length

/-! ## Haversine distance (`calculateDistance`, routes.ts 2781-2806)

The JS function computes in IEEE floats; the embedding reads the same
formula in exact real arithmetic.  Inside the `start-job` handler the value
actually computed by the float code enters as an oracle (`StartJobExt.hav`);
`calculateDistance` below is used to relate that oracle to the idealized
distance in the claims. -/

/-- JS `Math.atan2(y, x)` (the signed-zero distinction of IEEE is dropped;
only the `x > 0` branch is ever reached by the haversine formula). -/
noncomputable def atan2 (y x : ℝ) : ℝ :=
  if 0 < x then Real.arctan (y / x)
  else if x < 0 then
    (if 0 ≤ y then Real.arctan (y / x) + Real.pi else Real.arctan (y / x) - Real.pi)
  else if 0 < y then Real.pi / 2
  else if y < 0 then -(Real.pi / 2)
  else 0

/-- `calculateDistance` (haversine, Earth radius 6371e3 m), the exact-real
reading of routes.ts 2781-2806. -/
noncomputable def calculateDistance (lat1 lon1 lat2 lon2 : ℝ) : ℝ :=
  let earthR : ℝ := 6371000
  let phi1 := lat1 * Real.pi / 180
  let phi2 := lat2 * Real.pi / 180
  let dphi := (lat2 - lat1) * Real.pi / 180
  let dlam := (lon2 - lon1) * Real.pi / 180
  let a := Real.sin (dphi / 2) * Real.sin (dphi / 2) +
    Real.cos phi1 * Real.cos phi2 * (Real.sin (dlam / 2) * Real.sin (dlam / 2))
  let c := 2 * atan2 (Real.sqrt a) (Real.sqrt (1 - a))
  earthR * c

/-! ## Data model: the store rows the core handlers touch -/

/-- A `time_tracking` row. -/
structure TimeSession where
  id : Nat
  job_id : Nat
  engineer_id : Nat
  start_time : Timestamp
  accumulated_minutes : Int
  is_paused : Bool
  pause_start_time : Option Timestamp
  end_time : Option Timestamp
  duration_minutes : Option Int
  calculation_method : Option String
  adjustment_reason : Option String
  adjustment_minutes : Int
deriving Repr, DecidableEq

/-- A `jobs` row (the fields the core handlers read or write). -/
structure Job where
  id : Nat
  customer_id : Nat
  job_status : Option String
  customer_latitude : Option ℚ
  customer_longitude : Option ℚ
  site_location : String
  image_urls : List String
  product_names : List String
  notes : String
  route_id : Option Nat
  route_order : Option Nat
deriving Repr, DecidableEq

/-- A `customers` row (the fields the core handlers read or write). -/
structure Customer where
  id : Nat
  status : String
  opening_hours : Option String
  assigned_engineer : Option Nat
  scheduled_time : Option Timestamp
deriving Repr, DecidableEq

/-- A `routes` row (the fields the lifecycle handlers read or write). -/
structure RouteRec where
  id : Nat
  engineer_id : Nat
  status : String
  started_at : Option Timestamp
  completed_at : Option Timestamp
  cancelled_at : Option Timestamp
  cancellation_reason : Option String
deriving Repr, DecidableEq

/-- The store state visible to the core handlers. -/
structure DB where
  sessions : List TimeSession
  jobs : List Job
  customers : List Customer
  routes : List RouteRec
deriving Repr, DecidableEq

/-- Whether a session row is the open (`end_time = null`) row of the given
`(job_id, engineer_id)` pair — the filter
`.eq("job_id", jid).eq("engineer_id", eid).is("end_time", null)`. -/
def openFor (jid eid : Nat) (s : TimeSession) : Bool :=
  s.job_id == jid && s.engineer_id == eid && s.end_time.isNone

/-- The open-session lookup every engineer-action handler performs first. -/
def findOpenSession (db : DB) (jid eid : Nat) : Option TimeSession :=
  db.sessions.find? (openFor jid eid)

/-- `.from("jobs").eq("id", jid).single()`. -/
def findJob (db : DB) (jid : Nat) : Option Job :=
  db.jobs.find? (fun j => j.id == jid)

/-- `.from("customers").eq("id", cid).single()`. -/
def findCustomer (db : DB) (cid : Nat) : Option Customer :=
  db.customers.find? (fun c => c.id == cid)

/-- `.from("routes").eq("id", rid).eq("engineer_id", eid).single()`. -/
def findRoute (db : DB) (rid eid : Nat) : Option RouteRec :=
  db.routes.find? (fun r => r.id == rid && r.engineer_id == eid)

/-- `.from("time_tracking").update(f).eq("id", sid)`. -/
def updateSession (db : DB) (sid : Nat) (f : TimeSession → TimeSession) : DB :=
  { db with sessions := db.sessions.map (fun s => if s.id == sid then f s else s) }

/-- `.from("jobs").update(f).eq("id", jid)`. -/
def updateJob (db : DB) (jid : Nat) (f : Job → Job) : DB :=
  { db with jobs := db.jobs.map (fun j => if j.id == jid then f j else j) }

/-- `.from("customers").update(f).eq("id", cid)`. -/
def updateCustomer (db : DB) (cid : Nat) (f : Customer → Customer) : DB :=
  { db with customers := db.customers.map (fun c => if c.id == cid then f c else c) }

/-- `.from("routes").update(f).eq("id", rid)`. -/
def updateRoute (db : DB) (rid : Nat) (f : RouteRec → RouteRec) : DB :=
  { db with routes := db.routes.map (fun r => if r.id == rid then f r else r) }

/-- The conditional update of `submit-job-quote`:
`.update(f).eq("id", jid).eq("job_status", "In Progress").select().single()` —
apply `f` to the rows matching both filters and return the updated row.
`none` models the zero-row case, in which the client's `.single()` yields the
PGRST116 error ("no rows returned", the contract routes.ts itself documents
at 2922-2929) together with null data — the caller must treat `none` as that
error, not as an errorless empty result. -/
def condUpdateJobInProgress (db : DB) (jid : Nat) (f : Job → Job) :
    DB × Option Job :=
  let hit := db.jobs.find? (fun j => j.id == jid && j.job_status == some "In Progress")
  match hit with
  | none => (db, none)
  | some j =>
    let js := db.jobs.map
      (fun x => if x.id == jid && x.job_status == some "In Progress" then f x else x)
    ({ db with jobs := js }, some (f j))

/-- JS numeric falsiness `!x` for a nullable coordinate: true for
`undefined`/`null` and for the number `0`. -/
def numFalsy (o : Option ℚ) : Bool :=
  match o with
  | none => true
  | some x => x == 0

/-! ## POST /api/start-job (routes.ts 2999-3189) -/

/-- External inputs consumed by one `start-job` request: the driving-distance
lookup result (`none` = lookup failed / invalid payload; `ZERO_RESULTS` is
already folded to `some 0` inside `getDrivingDistance`), the value the
floating-point haversine fallback would compute for the request's
coordinates, the engineer's wall-clock `"HH:MM"` string, and the request
timestamp. -/
structure StartJobExt where
  driving : Option ℚ
  hav : ℚ
  clock : String
  now : Timestamp
deriving Repr, DecidableEq

/-- Responses of the `start-job` handler, one constructor per
`res.status(...).json(...)` site. -/
inductive StartJobResp where
  | resumed (entry : TimeSession)
  | alreadyActive
  | jobNotFound
  | quotedForbidden
  | customerNotFound
  | locationRequired
  | customerLocationMissing
  | locationVerificationFailed (distance : ℚ)
  | timeVerificationFailed
  | started (entry : TimeSession)
deriving Repr, DecidableEq

/-- HTTP status of each `start-job` response. -/
def StartJobResp.status : StartJobResp → Nat
  | .resumed _ => 200
  | .alreadyActive => 400
  | .jobNotFound => 404
  | .quotedForbidden => 403
  | .customerNotFound => 404
  | .locationRequired => 400
  | .customerLocationMissing => 400
  | .locationVerificationFailed _ => 400
  | .timeVerificationFailed => 400
  | .started _ => 200

/-- The `start-job` handler.  `freshId` is the row id the store assigns to a
newly inserted session.  Follows the source order exactly: open-session
check (resume / reject), job fetch, Quoted guard, customer fetch, engineer
coordinates guard (JS falsy: absent or zero), customer coordinates guard,
coincident-coordinates shortcut, driving distance with haversine fallback,
the `distance > 800000000` gate, opening-hours check, insert + job-status
update. -/
def startJob (db : DB) (jid eid : Nat) (engLat engLng : Option ℚ)
    (ext : StartJobExt) (freshId : Nat) : DB × StartJobResp :=
  match findOpenSession db jid eid with
  | some e =>
    if e.is_paused then
      (updateSession db e.id
        (fun s => { s with is_paused := false, pause_start_time := some ext.now }),
       .resumed e)
    else (db, .alreadyActive)
  | none =>
    match findJob db jid with
    | none => (db, .jobNotFound)
    | some job =>
      if job.job_status.map jsToLower == some "quoted" then
        (db, .quotedForbidden)
      else
        match findCustomer db job.customer_id with
        | none => (db, .customerNotFound)
        | some cust =>
          if numFalsy engLat || numFalsy engLng then (db, .locationRequired)
          else if numFalsy job.customer_latitude || numFalsy job.customer_longitude then
            (db, .customerLocationMissing)
          else
            let elat := engLat.getD 0
            let elng := engLng.getD 0
            let clat := (job.customer_latitude).getD 0
            let clng := (job.customer_longitude).getD 0
            let latDiff := |elat - clat|
            let lonDiff := |elng - clng|
            let distance : ℚ :=
              if latDiff < 1 / 10000 ∧ lonDiff < 1 / 10000 then 0
              else match ext.driving with
                | some d => d
                | none => ext.hav
            if distance > 800000000 then
              (db, .locationVerificationFailed distance)
            else
              let hoursOk :=
                match cust.opening_hours with
                | some oh => if oh ≠ "" then isWithinOpeningHours ext.clock oh else true
                | none => true
              if !hoursOk then (db, .timeVerificationFailed)
              else
                let entry : TimeSession :=
                  { id := freshId, job_id := jid, engineer_id := eid,
                    start_time := ext.now, accumulated_minutes := 0,
                    is_paused := false, pause_start_time := some ext.now,
                    end_time := none, duration_minutes := none,
                    calculation_method := none, adjustment_reason := none,
                    adjustment_minutes := 0 }
                let db1 := { db with sessions := entry :: db.sessions }
                let db2 := updateJob db1 jid (fun j => { j with job_status := some "In Progress" })
                (db2, .started entry)

/-! ## POST /api/pause-job (routes.ts 3191-3253) -/

/-- Responses of the `pause-job` handler. -/
inductive PauseResp where
  | notFound
  | alreadyPaused (accumulated : Int)
  | paused (sessionMinutes totalMinutes : Int)
deriving Repr, DecidableEq

/-- The `pause-job` handler: bank the minutes elapsed since the last
start/resume reference point (`pause_start_time || start_time`) into
`accumulated_minutes`, mark paused, and move the reference point to now. -/
def pauseJob (db : DB) (jid eid : Nat) (now : Timestamp) : DB × PauseResp :=
  match findOpenSession db jid eid with
  | none => (db, .notFound)
  | some e =>
    if e.is_paused then (db, .alreadyPaused e.accumulated_minutes)
    else
      let lastAction := e.pause_start_time.getD e.start_time
      let mins := minutesBetween now lastAction
      let newAcc := e.accumulated_minutes + mins
      (updateSession db e.id
        (fun s => { s with accumulated_minutes := newAcc, is_paused := true,
                           pause_start_time := some now }),
       .paused mins newAcc)

/-! ## POST /api/resume-job (routes.ts 3260-3326) -/

/-- Responses of the `resume-job` handler.  `jobStatusShown` is the
`job_status` field of the success JSON (`"Working"` only when the stored
status was exactly `"Approved"`). -/
inductive ResumeResp where
  | notFound
  | notPaused (accumulated : Int)
  | resumed (accumulated : Int) (jobStatusShown : Option String)
deriving Repr, DecidableEq

/-- The `resume-job` handler: clear the paused flag and move the reference
point to now, leaving `accumulated_minutes` untouched; afterwards promote a
job whose status lower-cases to `"approved"` to `"Working"`. -/
def resumeJob (db : DB) (jid eid : Nat) (now : Timestamp) : DB × ResumeResp :=
  match findOpenSession db jid eid with
  | none => (db, .notFound)
  | some e =>
    if ¬e.is_paused then (db, .notPaused e.accumulated_minutes)
    else
      let db1 := updateSession db e.id
        (fun s => { s with is_paused := false, pause_start_time := some now })
      let jobData := findJob db1 jid
      let db2 :=
        if (jobData.bind Job.job_status).map jsToLower == some "approved" then
          updateJob db1 jid (fun j => { j with job_status := some "Working" })
        else db1
      let shown :=
        if (jobData.bind Job.job_status) == some "Approved" then some "Working"
        else jobData.bind Job.job_status
      (db2, .resumed e.accumulated_minutes shown)

/-! ## POST /api/end-job (routes.ts 3385-3528) -/

/-- Responses of the `end-job` handler. -/
inductive EndJobResp where
  | notFound
  | ended (totalDurationMinutes : Int) (calculationMethod : String)
deriving Repr, DecidableEq

/-- The `end-job` handler: finalize the open session.  Manual override wins
when present and nonnegative; otherwise the total is
`accumulated + (live segment if running)`, and a nonzero signed adjustment
yields `max 0 (total + adjustment)` with method `"adjusted"`.  Also closes
the job (`Completed`) and its customer (`completed`). -/
def endJob (db : DB) (jid eid : Nat) (manual : Option Int)
    (adj : Int) (reason : String) (now : Timestamp) : DB × EndJobResp :=
  match findOpenSession db jid eid with
  | none => (db, .notFound)
  | some e =>
    let p : Int × String × String × Int :=
      match manual with
      | some m =>
        if m ≥ 0 then
          (m, "manual_override",
           if reason ≠ "" then reason else "Manual time entry by engineer", 0)
        else
          autoCalc e adj reason now
      | none => autoCalc e adj reason now
    let total := p.1
    let method := p.2.1
    let finalReason := p.2.2.1
    let finalAdj := p.2.2.2
    let db1 := updateSession db e.id
      (fun s => { s with end_time := some now, duration_minutes := some total,
                         is_paused := false, accumulated_minutes := total,
                         calculation_method := some method,
                         adjustment_reason := some finalReason,
                         adjustment_minutes := finalAdj })
    let db2 := updateJob db1 jid (fun j => { j with job_status := some "Completed" })
    let db3 :=
      match findJob db2 jid with
      | some j => updateCustomer db2 j.customer_id (fun c => { c with status := "completed" })
      | none => db2
    (db3, .ended total method)
where
  /-- The non-manual arm: accumulated plus live segment, then the signed
  adjustment clamped at zero. -/
  autoCalc (e : TimeSession) (adj : Int) (reason : String) (now : Timestamp) :
      Int × String × String × Int :=
    let base := e.accumulated_minutes +
      (if ¬e.is_paused then minutesBetween now (e.pause_start_time.getD e.start_time) else 0)
    if adj ≠ 0 then
      (max 0 (base + adj), "adjusted",
       (if reason ≠ "" then reason
        else "Time adjusted by " ++ toString adj ++ " minutes"), adj)
    else (base, "automatic", "", 0)

/-! ## POST /api/submit-job-quote (routes.ts 3577-3698) -/

/-- Responses of the `submit-job-quote` handler.  `conflict` is the
`if (!updatedJob)` 409 branch of the source — dead code, since `.single()`
errors whenever it returns no row; `failure` is the outer catch's 500
("Failed to submit quote") that the thrown update error reaches. -/
inductive QuoteResp where
  | alreadySubmitted (shownStatus : Option String)
  | conflict
  | failure
  | success (job : Job)
deriving Repr, DecidableEq

/-- HTTP status of each `submit-job-quote` response: the early
already-Quoted/Approved guard answers 400, the dead zero-row branch would
answer 409, and the catch-all answers 500. -/
def QuoteResp.status : QuoteResp → Nat
  | .alreadySubmitted _ => 400
  | .conflict => 409
  | .failure => 500
  | .success _ => 200

/-- The `submit-job-quote` handler.  Guard on current status lower-casing to
`quoted`/`approved` (400); pause — not close — the open session, banking the
live segment; then conditionally update the job to `Quoted` with the quote
payload, only where the stored status is exactly `"In Progress"`.  When the
conditional update matches zero rows, `.single()` raises PGRST116, so the
`if (updateError)` arm (routes.ts 3649-3662) rolls the just-banked pause
back to the fetched row's original values (only when it had paused a
running session) and throws; the outer catch answers 500.  The subsequent
`if (!updatedJob)` 409 branch is unreachable. -/
def submitJobQuote (db : DB) (jid eid : Nat) (image_urls : Option (List String))
    (product_names : Option (List String)) (notes : Option String)
    (now : Timestamp) : DB × QuoteResp :=
  let existingJob := findJob db jid
  let currentStatus := ((existingJob.bind Job.job_status).map jsToLower).getD ""
  if currentStatus = "quoted" ∨ currentStatus = "approved" then
    (db, .alreadySubmitted (existingJob.bind Job.job_status))
  else
    let timeEntry := findOpenSession db jid eid
    let db1 :=
      match timeEntry with
      | some t =>
        if ¬t.is_paused then
          let lastAction := t.pause_start_time.getD t.start_time
          let seg := minutesBetween now lastAction
          updateSession db t.id
            (fun s => { s with accumulated_minutes := t.accumulated_minutes + seg,
                               is_paused := true, pause_start_time := some now })
        else db
      | none => db
    let upd := condUpdateJobInProgress db1 jid
      (fun j => { j with job_status := some "Quoted",
                         image_urls := image_urls.getD [],
                         product_names := product_names.getD [],
                         notes := notes.getD "" })
    match upd.2 with
    | none =>
      match timeEntry with
      | some t =>
        if ¬t.is_paused then
          (updateSession upd.1 t.id
            (fun s => { s with accumulated_minutes := t.accumulated_minutes,
                               is_paused := false,
                               pause_start_time := t.pause_start_time }),
           .failure)
        else (upd.1, .failure)
      | none => (upd.1, .failure)
    | some j => (upd.1, .success j)

/-! ## PUT /api/engineers/:engineerId/routes/:routeId/complete
(routes.ts 4781-4867) -/

/-- Responses of the route `complete` handler. -/
inductive CompleteRouteResp where
  | notFound
  | statusError (current : String)
  | noJobs
  | pending (totalJobs completedJobs pendingJobs : Nat)
      (incompleteStatuses : List (Option String))
  | completed (totalJobs completedJobs : Nat)
deriving Repr, DecidableEq

/-- HTTP status of each route-complete response. -/
def CompleteRouteResp.status : CompleteRouteResp → Nat
  | .notFound => 404
  | .statusError _ => 400
  | .noJobs => 400
  | .pending _ _ _ _ => 400
  | .completed _ _ => 200

/-- Jobs linked to a route: `.from("jobs").eq("route_id", rid)`. -/
def routeJobs (db : DB) (rid : Nat) : List Job :=
  db.jobs.filter (fun j => j.route_id == some rid)

/-- The route `complete` handler: only `in_progress` routes; a route with no
linked jobs is rejected; a route with pending jobs is rejected with counts
and the statuses of the incomplete jobs; otherwise the route becomes
`completed`. -/
def completeRoute (db : DB) (eid rid : Nat) (now : Timestamp) :
    DB × CompleteRouteResp :=
  match findRoute db rid eid with
  | none => (db, .notFound)
  | some r =>
    if r.status ≠ "in_progress" then (db, .statusError r.status)
    else
      let jobs := routeJobs db rid
      let totalJobs := jobs.length
      let completedJobs := (jobs.filter (fun j => isJobCompleted j.job_status)).length
      if totalJobs = 0 then (db, .noJobs)
      else if completedJobs < totalJobs then
        (db, .pending totalJobs completedJobs (totalJobs - completedJobs)
          ((jobs.filter (fun j => ¬isJobCompleted j.job_status)).map Job.job_status))
      else
        (updateRoute db rid
          (fun x => { x with status := "completed", completed_at := some now }),
         .completed totalJobs completedJobs)

/-! ## PUT /api/engineers/:engineerId/routes/:routeId/cancel
(routes.ts 4869-4964) -/

/-- Responses of the route `cancel` handler. -/
inductive CancelRouteResp where
  | notFound
  | statusError (current : String)
  | cancelled (jobsCancelled : Nat)
deriving Repr, DecidableEq

/-- HTTP status of each route-cancel response. -/
def CancelRouteResp.status : CancelRouteResp → Nat
  | .notFound => 404
  | .statusError _ => 400
  | .cancelled _ => 200

/-- The route `cancel` handler: only `scheduled` routes; cascades to every
linked job (`Cancelled`, route linkage cleared) and to the customers of
those jobs (`new`, engineer and schedule cleared).  `reason || null` maps an
empty reason string to null. -/
def cancelRoute (db : DB) (eid rid : Nat) (reason : Option String)
    (now : Timestamp) : DB × CancelRouteResp :=
  match findRoute db rid eid with
  | none => (db, .notFound)
  | some r =>
    if r.status ≠ "scheduled" then (db, .statusError r.status)
    else
      let jobs := routeJobs db rid
      let customerIds := jobs.map Job.customer_id
      let db1 := updateRoute db rid
        (fun x => { x with status := "cancelled", cancelled_at := some now,
                           cancellation_reason :=
                             reason.bind (fun s => if s = "" then none else some s) })
      let js2 := db1.jobs.map
        (fun j => if j.route_id == some rid then
            { j with job_status := some "Cancelled", route_id := none, route_order := none }
          else j)
      let db2 := { db1 with jobs := js2 }
      let cs3 := db2.customers.map
        (fun c => if customerIds.contains c.id then
            { c with status := "new", assigned_engineer := none, scheduled_time := none }
          else c)
      let db3 := if customerIds ≠ [] then { db2 with customers := cs3 } else db2
      (db3, .cancelled jobs.length)

/-! ## Derived views used in theorem statements -/

/-- The rendered window-start string of an opening-hours value with at least
two tokens (`""` otherwise). -/
def windowStartOf (s : String) : String :=
  match scanTokens s.data with
  | t1 :: _ :: _ => windowStart t1
  | _ => ""

/-- The rendered window-end string of an opening-hours value with at least
two tokens (`""` otherwise). -/
def windowEndOf (s : String) : String :=
  match scanTokens s.data with
  | _ :: t2 :: _ => windowStart t2
  | _ => ""

/-- The central concurrency invariant of §4.3: at most one open
(`end_time = null`) session per `(job_id, engineer_id)` pair. -/
def atMostOneOpen (db : DB) : Prop :=
  ∀ jid eid : Nat, (db.sessions.filter (openFor jid eid)).length ≤ 1

/-! ## Concrete fixtures used by witnesses and counterexamples -/

/-- A customer row fixture. -/
def exCustomer : Customer :=
  { id := 20, status := "assigned", opening_hours := none,
    assigned_engineer := some 7, scheduled_time := some 0 }

/-- A customer row fixture with a chosen id. -/
def exCustomerN (i : Nat) : Customer := { exCustomer with id := i }

/-- A job row fixture with a chosen status. -/
def exJob (st : Option String) : Job :=
  { id := 10, customer_id := 20, job_status := st,
    customer_latitude := some 1, customer_longitude := some 1,
    site_location := "Site A", image_urls := [], product_names := [],
    notes := "", route_id := none, route_order := none }

/-- An open session fixture for job 10 / engineer 7, paused or running. -/
def exSession (paused : Bool) : TimeSession :=
  { id := 1, job_id := 10, engineer_id := 7, start_time := 0,
    accumulated_minutes := 0, is_paused := paused, pause_start_time := some 0,
    end_time := none, duration_minutes := none, calculation_method := none,
    adjustment_reason := none, adjustment_minutes := 0 }

/-- External inputs fixture: driving lookup failed, floating-point haversine
fallback ≈ 157.2 km (the (2,2)→(1,1) separation), noon clock, t = 60 s. -/
def exExt : StartJobExt :=
  { driving := none, hav := 157249, clock := "12:00", now := 60000 }

/-- A `Quoted` job with an open paused session — exactly the state
`submit-job-quote` leaves behind. -/
def dbQuotedPaused : DB :=
  { sessions := [exSession true], jobs := [exJob (some "Quoted")],
    customers := [exCustomer], routes := [] }

/-- A `Quoted` job with no open session. -/
def dbQuotedNoSession : DB :=
  { sessions := [], jobs := [exJob (some "Quoted")],
    customers := [exCustomer], routes := [] }

/-- An `Assigned` job with no open session. -/
def dbAssigned : DB :=
  { sessions := [], jobs := [exJob (some "Assigned")],
    customers := [exCustomer], routes := [] }

/-- An `Assigned` job with an open running session. -/
def dbRunning : DB :=
  { sessions := [exSession false], jobs := [exJob (some "Assigned")],
    customers := [exCustomer], routes := [] }

/-- An `In Progress` job with an open running session. -/
def dbInProgressRunning : DB :=
  { sessions := [exSession false], jobs := [exJob (some "In Progress")],
    customers := [exCustomer], routes := [] }

/-- An `In Progress` job with an open running session that has banked
10 minutes (for the end-job adjustment witness). -/
def dbTracked : DB :=
  { sessions := [{ exSession false with accumulated_minutes := 10 }],
    jobs := [exJob (some "In Progress")], customers := [exCustomer], routes := [] }

/-- A route row fixture with a chosen status. -/
def exRoute (st : String) : RouteRec :=
  { id := 5, engineer_id := 7, status := st, started_at := none,
    completed_at := none, cancelled_at := none, cancellation_reason := none }

/-- A job linked to route 5 with a chosen id, customer and status. -/
def exRouteJob (i cid : Nat) (st : Option String) : Job :=
  { exJob st with id := i, customer_id := cid, route_id := some 5, route_order := some i }

/-- An `in_progress` route with no linked jobs. -/
def dbEmptyRouteInProgress : DB :=
  { sessions := [], jobs := [], customers := [], routes := [exRoute "in_progress"] }

/-- An `in_progress` route whose two linked jobs are both completed. -/
def dbRouteDone : DB :=
  { sessions := [],
    jobs := [exRouteJob 11 20 (some "Completed"), exRouteJob 12 21 (some "Paid")],
    customers := [exCustomer, exCustomerN 21], routes := [exRoute "in_progress"] }

/-- A `scheduled` route with three linked jobs and their three customers —
the spec's route-cancel example. -/
def dbSched3 : DB :=
  { sessions := [],
    jobs := [exRouteJob 11 20 (some "Assigned"), exRouteJob 12 21 (some "Assigned"),
             exRouteJob 13 22 (some "Assigned")],
    customers := [exCustomer, exCustomerN 21, exCustomerN 22],
    routes := [exRoute "scheduled"] }

/-! ## Helper lemmas -/

/-- JS string `<=` is reflexive. -/
theorem lexLe_refl (l : List Char) : lexLe l l = true := by
  induction l with
  | nil => rfl
  | cons a t ih => simp [lexLe, ih]

/-- `find?` commutes with a map that does not change the predicate's verdict. -/
theorem find?_map_pres {α : Type} (g : α → α) (p : α → Bool)
    (h : ∀ x, p (g x) = p x) (l : List α) :
    (l.map g).find? p = (l.find? p).map g := by
  induction l with
  | nil => rfl
  | cons a t ih =>
    cases hpa : p a with
    | false =>
      rw [List.map_cons, List.find?_cons_of_neg _ (by simp [h a, hpa]),
        List.find?_cons_of_neg _ (by simp [hpa]), ih]
    | true =>
      rw [List.map_cons, List.find?_cons_of_pos _ (by simp [h a, hpa]),
        List.find?_cons_of_pos _ hpa, Option.map_some']

/-- If the first `p`-element of a list also satisfies `q`, it is the first
`p && q`-element. -/
theorem find?_strengthen {α : Type} (p q : α → Bool) (l : List α) (j : α)
    (hf : l.find? p = some j) (hq : q j = true) :
    l.find? (fun x => p x && q x) = some j := by
  induction l with
  | nil => simp at hf
  | cons a t ih =>
    cases hpa : p a with
    | false =>
      rw [List.find?_cons_of_neg _ (by simp [hpa])]
      exact ih (by rwa [List.find?_cons_of_neg _ (by simp [hpa])] at hf)
    | true =>
      rw [List.find?_cons_of_pos _ hpa] at hf
      obtain rfl : a = j := by simpa using hf
      rw [List.find?_cons_of_pos _ (by simp [hpa, hq])]

/-- If the only `p`-element of a list fails `q`, no element satisfies
`p && q`. -/
theorem find?_only_none {α : Type} (p q : α → Bool) (l : List α) (j : α)
    (hq : q j = false) (honly : ∀ x ∈ l, p x = true → x = j) :
    l.find? (fun x => p x && q x) = none := by
  rw [List.find?_eq_none]
  intro x hx hpq
  rw [Bool.and_eq_true] at hpq
  have hxj := honly x hx hpq.1
  subst hxj
  rw [hq] at hpq
  exact Bool.false_ne_true hpq.2

/-- Mapping a function that never turns a non-`p` element into a `p` element
cannot grow the `p`-filtered length. -/
theorem filter_map_length_le {α : Type} (g : α → α) (p : α → Bool)
    (h : ∀ x, p (g x) = true → p x = true) (l : List α) :
    ((l.map g).filter p).length ≤ (l.filter p).length := by
  induction l with
  | nil => simp
  | cons a t ih =>
    rw [List.map_cons]
    cases hpg : p (g a) with
    | false =>
      rw [List.filter_cons_of_neg (by simp [hpg])]
      cases hpa : p a with
      | false => rw [List.filter_cons_of_neg (by simp [hpa])]; exact ih
      | true =>
        rw [List.filter_cons_of_pos hpa]
        exact le_trans ih (Nat.le_succ _)
    | true =>
      rw [List.filter_cons_of_pos hpg, List.filter_cons_of_pos (h a hpg)]
      simpa using ih

/-- Mapping a function that does not change the predicate's verdict keeps
the `p`-filtered length. -/
theorem filter_map_length_eq {α : Type} (g : α → α) (p : α → Bool)
    (h : ∀ x, p (g x) = p x) (l : List α) :
    ((l.map g).filter p).length = (l.filter p).length := by
  induction l with
  | nil => simp
  | cons a t ih =>
    rw [List.map_cons]
    cases hpa : p a with
    | false =>
      rw [List.filter_cons_of_neg (by simp [h a, hpa]),
        List.filter_cons_of_neg (by simp [hpa])]
      exact ih
    | true =>
      rw [List.filter_cons_of_pos (by simp [h a, hpa]), List.filter_cons_of_pos hpa]
      simpa using ih

/-- A list satisfies `all p` exactly when filtering by `p` keeps its length. -/
theorem all_iff_filter_length {α : Type} (p : α → Bool) (l : List α) :
    l.all p = true ↔ (l.filter p).length = l.length := by
  induction l with
  | nil => simp
  | cons a t ih =>
    cases hpa : p a with
    | false =>
      rw [List.filter_cons_of_neg (by simp [hpa])]
      simp only [List.all_cons, hpa, Bool.false_and, List.length_cons]
      constructor
      · intro hfalse; exact absurd hfalse (by simp)
      · intro hlen
        have := List.length_filter_le p t
        omega
    | true =>
      rw [List.filter_cons_of_pos hpa]
      simp only [List.all_cons, hpa, Bool.true_and, List.length_cons]
      constructor
      · intro hall; rw [ih.mp hall]
      · intro hlen; exact ih.mpr (by omega)

/-- `arctan` dominates the sine of its own angle, giving the lower bound
`t / √(1 + t²) ≤ arctan t` for nonnegative arguments. -/
theorem arctan_ge_sin_ratio (t : ℝ) (ht : 0 ≤ t) :
    t / Real.sqrt (1 + t ^ 2) ≤ Real.arctan t := by
  have h1 := Real.sin_arctan t
  have hnn : 0 ≤ Real.arctan t := by
    rw [Real.arctan_eq_arcsin]
    exact Real.arcsin_nonneg.mpr (div_nonneg ht (Real.sqrt_nonneg _))
  have h2 : Real.sin (Real.arctan t) ≤ Real.arctan t := Real.sin_le hnn
  linarith [h1 ▸ h2]

/-- The haversine's angle term is at least `√a` when `0 ≤ a < 1`. -/
theorem atan2_ge_sqrt (a : ℝ) (h0 : 0 ≤ a) (h1 : a < 1) :
    Real.sqrt a ≤ atan2 (Real.sqrt a) (Real.sqrt (1 - a)) := by
  have hx : 0 < Real.sqrt (1 - a) := Real.sqrt_pos.mpr (by linarith)
  rw [atan2, if_pos hx]
  set t := Real.sqrt a / Real.sqrt (1 - a) with ht
  have htnn : 0 ≤ t := div_nonneg (Real.sqrt_nonneg _) (Real.sqrt_nonneg _)
  have hsq : t ^ 2 = a / (1 - a) := by
    rw [ht, div_pow, Real.sq_sqrt h0, Real.sq_sqrt (by linarith)]
  have hne : (1 : ℝ) - a ≠ 0 := by linarith
  have hone : 1 + t ^ 2 = 1 / (1 - a) := by
    rw [hsq]; field_simp
  have hkey : t / Real.sqrt (1 + t ^ 2) = Real.sqrt a := by
    rw [hone, one_div, Real.sqrt_inv, div_eq_mul_inv, inv_inv, ht,
      div_mul_cancel₀ _ (ne_of_gt hx)]
  calc Real.sqrt a = t / Real.sqrt (1 + t ^ 2) := hkey.symm
    _ ≤ Real.arctan t := arctan_ge_sin_ratio t htnn

/-- The haversine's angle term is below `π/2` whenever its second argument is
positive. -/
theorem atan2_lt_pi_div_two (y x : ℝ) (hx : 0 < x) : atan2 y x < Real.pi / 2 := by
  rw [atan2, if_pos hx]
  exact Real.arctan_lt_pi_div_two _

/-- The idealized haversine distance between (0,0) and (1,1) lies strictly
between the claimed 1000 m threshold and the 800000000 m constant actually
in the code. -/
theorem calculateDistance_example_bounds :
    (1000 : ℝ) < calculateDistance 0 0 1 1 ∧
    calculateDistance 0 0 1 1 < 800000000 := by
  have hp3 : (3 : ℝ) < Real.pi := Real.pi_gt_three
  have hp4 : Real.pi < 4 := Real.pi_lt_four
  set p := Real.pi / 360 with hpdef
  have hp_pos : 0 < p := by positivity
  have hp_lb : (1 : ℝ) / 120 < p := by rw [hpdef]; linarith
  have hp_ub : p < 1 / 90 := by rw [hpdef]; linarith
  set s := Real.sin p with hsdef
  have hs_pos : 0 < s := Real.sin_pos_of_pos_of_lt_pi hp_pos (by rw [hpdef]; linarith)
  have hs_lb : (1 : ℝ) / 125 < s := by
    have hcube := Real.sin_gt_sub_cube hp_pos (by rw [hpdef]; linarith)
    have hc3 : p ^ 3 < (1 / 90 : ℝ) ^ 3 := pow_lt_pow_left₀ hp_ub hp_pos.le (by norm_num)
    have hc3n : p ^ 3 < 1 / 729000 := by norm_num at hc3 ⊢; linarith
    linarith
  have hs_ub : s < 1 / 90 := lt_trans (Real.sin_lt hp_pos) hp_ub
  set c2 := Real.cos (Real.pi / 180) with hc2def
  have hc2_nn : 0 ≤ c2 := by
    apply Real.cos_nonneg_of_mem_Icc
    constructor <;> [linarith; linarith]
  have hc2_le : c2 ≤ 1 := Real.cos_le_one _
  set a := s * s + 1 * c2 * (s * s) with hadef
  have ha_nn : 0 ≤ a := by nlinarith
  have ha_lb : s * s ≤ a := by nlinarith
  have ha_ub : a < 1 := by nlinarith
  have hsqrt_a : s ≤ Real.sqrt a := by
    have := Real.sqrt_le_sqrt ha_lb
    rwa [Real.sqrt_mul_self hs_pos.le] at this
  have hgate := atan2_ge_sqrt a ha_nn ha_ub
  have hx : 0 < Real.sqrt (1 - a) := Real.sqrt_pos.mpr (by linarith)
  have hup := atan2_lt_pi_div_two (Real.sqrt a) (Real.sqrt (1 - a)) hx
  have heq : calculateDistance 0 0 1 1 =
      6371000 * (2 * atan2 (Real.sqrt a) (Real.sqrt (1 - a))) := by
    unfold calculateDistance
    rw [hadef, hsdef, hpdef, hc2def]
    norm_num [Real.cos_zero]
    ring_nf
  rw [heq]
  constructor
  · nlinarith [hgate, hsqrt_a, hs_lb]
  · nlinarith

/-! ## Claim theorems -/

/-- Claim C9: `isWithinOpeningHours` fails open — it returns `true` for every
input that is empty, equals the literal `"Time not specified"`, or contains
fewer than two parseable time tokens (in the embedding no parse step can
throw, so the JS catch-arm's fail-open is vacuous); and when two tokens are
found the window check is inclusive on both ends: the result is exactly
`start ≤ current ∧ current ≤ end`, so a current time equal to either rendered
boundary of a nonempty window is accepted. -/
theorem C9_opening_hours_fail_open (cur s : String) :
    ((s = "" ∨ s = "Time not specified" ∨ tokenCount s < 2) →
      isWithinOpeningHours cur s = true) ∧
    (2 ≤ tokenCount s →
      (isWithinOpeningHours cur s = true ↔
        (jsStrLe (windowStartOf s) cur = true ∧ jsStrLe cur (windowEndOf s) = true))) ∧
    (2 ≤ tokenCount s → jsStrLe (windowStartOf s) (windowEndOf s) = true →
      isWithinOpeningHours (windowStartOf s) s = true ∧
      isWithinOpeningHours (windowEndOf s) s = true) := by
  by_cases hlit : s = "" ∨ s = "Time not specified"
  · have h0 : tokenCount s = 0 := by
      rcases hlit with h | h <;> subst h <;> decide
    refine ⟨fun _ => ?_, fun h2 => absurd (h0 ▸ h2) (by omega), fun h2 => absurd (h0 ▸ h2) (by omega)⟩
    unfold isWithinOpeningHours
    rw [if_pos hlit]
  · have hwin : ∀ c : String, isWithinOpeningHours c s =
        (match scanTokens s.data with
          | t1 :: t2 :: _ => jsStrLe (windowStart t1) c && jsStrLe c (windowStart t2)
          | _ => true) := by
      intro c; unfold isWithinOpeningHours; rw [if_neg hlit]
    rcases htok : scanTokens s.data with _ | ⟨t1, _ | ⟨t2, rest⟩⟩
    · have hc : tokenCount s = 0 := by unfold tokenCount; rw [htok]; rfl
      exact ⟨fun _ => by rw [hwin, htok], fun h2 => absurd (hc ▸ h2) (by omega),
        fun h2 => absurd (hc ▸ h2) (by omega)⟩
    · have hc : tokenCount s = 1 := by unfold tokenCount; rw [htok]; rfl
      exact ⟨fun _ => by rw [hwin, htok], fun h2 => absurd (hc ▸ h2) (by omega),
        fun h2 => absurd (hc ▸ h2) (by omega)⟩
    · have hc : 2 ≤ tokenCount s := by unfold tokenCount; rw [htok]; simp
      have hstart : windowStartOf s = windowStart t1 := by
        unfold windowStartOf; rw [htok]
      have hend : windowEndOf s = windowStart t2 := by
        unfold windowEndOf; rw [htok]
      refine ⟨fun hh => ?_, fun _ => ?_, fun _ hrange => ?_⟩
      · rcases hh with h | h | h
        · exact absurd (Or.inl h) hlit
        · exact absurd (Or.inr h) hlit
        · omega
      · rw [hwin, htok, hstart, hend, Bool.and_eq_true]
      · rw [hstart, hend] at hrange ⊢
        constructor
        · rw [hwin, htok, Bool.and_eq_true]
          exact ⟨by unfold jsStrLe; exact lexLe_refl _, hrange⟩
        · rw [hwin, htok, Bool.and_eq_true]
          exact ⟨hrange, by unfold jsStrLe; exact lexLe_refl _⟩

/-- Witness for C9 at concrete inputs: the literal placeholder and a
token-free string are accepted at any time; a `"9 AM - 6 PM"` window is
characterized by the inclusive string comparison and accepts both of its own
boundaries (09:00 and 18:00). -/
theorem C9_opening_hours_fail_open_witness :
    isWithinOpeningHours "03:07" "Time not specified" = true ∧
    isWithinOpeningHours "03:07" "call for availability" = true ∧
    (isWithinOpeningHours "12:30" "9 AM - 6 PM" = true ↔
      (jsStrLe (windowStartOf "9 AM - 6 PM") "12:30" = true ∧
        jsStrLe "12:30" (windowEndOf "9 AM - 6 PM") = true)) ∧
    isWithinOpeningHours (windowStartOf "9 AM - 6 PM") "9 AM - 6 PM" = true ∧
    isWithinOpeningHours (windowEndOf "9 AM - 6 PM") "9 AM - 6 PM" = true :=
  ⟨(C9_opening_hours_fail_open "03:07" "Time not specified").1 (Or.inr (Or.inl rfl)),
   (C9_opening_hours_fail_open "03:07" "call for availability").1 (Or.inr (Or.inr (by decide))),
   (C9_opening_hours_fail_open "12:30" "9 AM - 6 PM").2.1 (by decide),
   ((C9_opening_hours_fail_open "x" "9 AM - 6 PM").2.2 (by decide) (by decide)).1,
   ((C9_opening_hours_fail_open "x" "9 AM - 6 PM").2.2 (by decide) (by decide)).2⟩

/-- Counterexample to claim C3 as stated: a job whose status is `Quoted` but
which still has an open paused session for the pair (exactly the state
`submit-job-quote` leaves behind) is not rejected with 403 — the handler's
open-session check runs before the status guard, so the request resumes the
session and answers 200. -/
theorem C3_quoted_start_counterexample :
    (startJob dbQuotedPaused 10 7 (some 2) (some 2) exExt 99).2 =
      .resumed (exSession true) ∧
    (startJob dbQuotedPaused 10 7 (some 2) (some 2) exExt 99).2.status = 200 ∧
    (findJob dbQuotedPaused 10).map Job.job_status = some (some "Quoted") := by
  decide

/-- Claim C3 (amended): for every start-job request on a job whose current
status lower-cases to `quoted`, *when no open session exists for the
(job, engineer) pair*, the request fails with Forbidden (403) and changes
nothing, regardless of the engineer's coordinates, the clock, or the
external distance lookup; when an open paused session exists the request
resumes it instead. -/
theorem C3_quoted_start_forbidden (db : DB) (jid eid : Nat)
    (engLat engLng : Option ℚ) (ext : StartJobExt) (fid : Nat) (j : Job)
    (st : String) (hno : findOpenSession db jid eid = none)
    (hj : findJob db jid = some j) (hst : j.job_status = some st)
    (hq : jsToLower st = "quoted") :
    startJob db jid eid engLat engLng ext fid = (db, .quotedForbidden) ∧
    (startJob db jid eid engLat engLng ext fid).2.status = 403 := by
  have hmain : startJob db jid eid engLat engLng ext fid = (db, .quotedForbidden) := by
    unfold startJob
    rw [hno, hj]
    simp [hst, hq]
  exact ⟨hmain, by rw [hmain]; rfl⟩

/-- Witness for C3 (amended) on the concrete `Quoted` job with no open
session: 403 regardless of perfect coordinates. -/
theorem C3_quoted_start_forbidden_witness :
    startJob dbQuotedNoSession 10 7 (some 1) (some 1) exExt 99 =
      (dbQuotedNoSession, .quotedForbidden) ∧
    (startJob dbQuotedNoSession 10 7 (some 1) (some 1) exExt 99).2.status = 403 :=
  C3_quoted_start_forbidden dbQuotedNoSession 10 7 (some 1) (some 1) exExt 99
    (exJob (some "Quoted")) "Quoted" (by decide) (by decide) (by decide) (by decide)

/-- Claim C2 (code bug): the claim and the handler's own error message say a
start must be within 1000 m, but the code's gate is `distance > 800000000`
(800 000 km).  (i) At the claim's exact input the engineer coordinates (0,0)
are rejected earlier by the JS falsy-coordinate guard (`!engineer_latitude`
is true for the number 0), so the 1000 m violation never surfaces.  (ii)
From (2,2), ≈157 km away from the customer at (1,1), the request succeeds —
a session row is inserted.  (iii) The idealized haversine distance between
(0,0) and (1,1) really exceeds 1000 m yet stays far below the coded
800000000 m gate, so exact evaluation of the fallback could not rescue the
claim.  (iv) The gate accepts every driving distance up to 800000000 m. -/
theorem C2_distance_gate_code_bug :
    (startJob dbAssigned 10 7 (some 0) (some 0) exExt 99).2 = .locationRequired ∧
    ((startJob dbAssigned 10 7 (some 2) (some 2) exExt 99).2.status = 200 ∧
      (startJob dbAssigned 10 7 (some 2) (some 2) exExt 99).1.sessions.length =
        dbAssigned.sessions.length + 1 ∧
      (1000 : ℚ) < exExt.hav) ∧
    ((1000 : ℝ) < calculateDistance 0 0 1 1 ∧
      calculateDistance 0 0 1 1 < 800000000) ∧
    (∀ d : ℚ, 1000 < d → d ≤ 800000000 →
      (startJob dbAssigned 10 7 (some 2) (some 2)
        { exExt with driving := some d } 99).2.status = 200) := by
  refine ⟨?_, ⟨?_, ?_, by norm_num [exExt]⟩, calculateDistance_example_bounds, ?_⟩
  · norm_num [startJob, findOpenSession, findJob, findCustomer, dbAssigned, exJob,
      exCustomer, exExt, numFalsy, openFor, List.find?, jsToLower]
    decide
  · norm_num [startJob, findOpenSession, findJob, findCustomer, dbAssigned, exJob,
      exCustomer, exExt, numFalsy, openFor, List.find?, jsToLower, updateJob,
      StartJobResp.status]
    decide
  · norm_num [startJob, findOpenSession, findJob, findCustomer, dbAssigned, exJob,
      exCustomer, exExt, numFalsy, openFor, List.find?, jsToLower, updateJob]
    decide
  · intro d _ hhigh
    have hgate : ¬(d > 800000000) := not_lt.mpr hhigh
    norm_num [startJob, findOpenSession, findJob, findCustomer, dbAssigned, exJob,
      exCustomer, exExt, numFalsy, openFor, List.find?, jsToLower, updateJob,
      StartJobResp.status, hgate]
    decide

/-- Witness for the universally quantified gate conjunct of C2 at the
concrete driving distance 157 000 m. -/
theorem C2_distance_gate_code_bug_witness :
    (1000 : ℚ) < 157000 ∧ (157000 : ℚ) ≤ 800000000 ∧
    (startJob dbAssigned 10 7 (some 2) (some 2)
      { exExt with driving := some 157000 } 99).2.status = 200 :=
  ⟨by norm_num, by norm_num,
    C2_distance_gate_code_bug.2.2.2 157000 (by norm_num) (by norm_num)⟩

/-- Counterexample to claim C5 as stated: submitting a quote for a job whose
stored status is `Quoted` (not `In Progress`) is rejected with HTTP 400
("Quote already submitted"), not with Conflict (409). -/
theorem C5_quote_conflict_counterexample :
    (submitJobQuote dbQuotedPaused 10 7 none none none 0).2.status = 400 ∧
    (400 : Nat) ≠ 409 ∧
    (findJob dbQuotedPaused 10).map Job.job_status = some (some "Quoted") := by
  decide

/-- Claim C5 (amended): every submit-job-quote request on a job whose stored
status is not exactly `In Progress` is rejected and leaves the job row
unchanged — with 400 ("quote already submitted") when the status lower-cases
to `quoted` or `approved`, and otherwise with 500: the conditional update
matches zero rows, `.single()` raises PGRST116, the just-banked pause is
rolled back (the open session is restored to its fetched state) and the
handler throws to its catch-all.  The `if (!updatedJob)` 409 Conflict branch
is dead code: the response is never `conflict`. -/
theorem C5_quote_non_in_progress (db : DB) (jid eid : Nat)
    (im pn : Option (List String)) (nt : Option String) (now : Timestamp)
    (j : Job) (hj : findJob db jid = some j)
    (hs : j.job_status ≠ some "In Progress")
    (honly : ∀ x ∈ db.jobs, (x.id == jid) = true → x = j) :
    ((submitJobQuote db jid eid im pn nt now).2.status = 400 ∨
      (submitJobQuote db jid eid im pn nt now).2.status = 500) ∧
    ((∃ st, j.job_status = some st ∧
        (jsToLower st = "quoted" ∨ jsToLower st = "approved")) →
      submitJobQuote db jid eid im pn nt now = (db, .alreadySubmitted j.job_status)) ∧
    ((∀ st, j.job_status = some st →
        jsToLower st ≠ "quoted" ∧ jsToLower st ≠ "approved") →
      (submitJobQuote db jid eid im pn nt now).2 = .failure ∧
      findOpenSession (submitJobQuote db jid eid im pn nt now).1 jid eid =
        findOpenSession db jid eid) ∧
    (submitJobQuote db jid eid im pn nt now).2 ≠ .conflict ∧
    findJob (submitJobQuote db jid eid im pn nt now).1 jid = some j := by
  have hfind : db.jobs.find? (fun x => x.id == jid) = some j := hj
  by_cases hc : ((j.job_status.map jsToLower).getD "") = "quoted" ∨
      ((j.job_status.map jsToLower).getD "") = "approved"
  · have hout : submitJobQuote db jid eid im pn nt now =
        (db, .alreadySubmitted j.job_status) := by
      unfold submitJobQuote
      rw [hj]
      simp only [Option.some_bind]
      rw [if_pos hc]
    refine ⟨Or.inl (by rw [hout]; rfl), fun _ => hout, fun hall => ?_,
      by rw [hout]; exact fun hh => QuoteResp.noConfusion hh,
      by rw [hout]; exact hj⟩
    exfalso
    rcases hc with h | h <;> {
      cases hjs : j.job_status with
      | none => rw [hjs] at h; exact absurd h (by decide)
      | some st =>
        rw [hjs] at h
        simp only [Option.map_some', Option.getD_some] at h
        rcases hall st hjs with ⟨h1, h2⟩
        first
        | exact h1 h
        | exact h2 h }
  · have hq : (j.job_status == some "In Progress") = false :=
      beq_eq_false_iff_ne.mpr hs
    have hnone : ∀ l : List Job, l = db.jobs →
        l.find? (fun x => x.id == jid && x.job_status == some "In Progress") = none := by
      intro l hl
      subst hl
      exact find?_only_none _ _ _ j hq (fun x hx hp => honly x hx hp)
    -- the zero-row conditional update on any state that carries db's jobs
    have hcu : ∀ db1 : DB, db1.jobs = db.jobs →
        (condUpdateJobInProgress db1 jid (fun x =>
          { x with job_status := some "Quoted", image_urls := im.getD [],
                   product_names := pn.getD [], notes := nt.getD "" })) =
          (db1, none) := by
      intro db1 h1
      unfold condUpdateJobInProgress
      rw [h1, hnone db.jobs rfl]
    have hmain : (submitJobQuote db jid eid im pn nt now).2 = .failure ∧
        (submitJobQuote db jid eid im pn nt now).1.jobs = db.jobs ∧
        findOpenSession (submitJobQuote db jid eid im pn nt now).1 jid eid =
          findOpenSession db jid eid := by
      unfold submitJobQuote
      rw [hj]
      simp only [Option.some_bind]
      rw [if_neg hc]
      cases hte : findOpenSession db jid eid with
      | none =>
        simp only [hte]
        rw [hcu db rfl]
        exact ⟨rfl, rfl, hte⟩
      | some t =>
        simp only [hte]
        by_cases hp : ¬t.is_paused = true
        · rw [if_pos hp, if_pos hp]
          rw [hcu (updateSession db t.id _) rfl]
          refine ⟨rfl, rfl, ?_⟩
          -- pause then rollback restores the open row to its fetched state
          show ((db.sessions.map _).map _).find? (openFor jid eid) = _
          rw [find?_map_pres _ _ (fun x => by
            by_cases hx : (x.id == t.id) = true
            · rw [if_pos hx]; rfl
            · rw [if_neg hx]) (db.sessions.map _)]
          rw [find?_map_pres _ _ (fun x => by
            by_cases hx : (x.id == t.id) = true
            · rw [if_pos hx]; rfl
            · rw [if_neg hx]) db.sessions]
          rw [show db.sessions.find? (openFor jid eid) = some t from hte]
          rw [Option.map_some', Option.map_some']
          rw [if_pos (beq_self_eq_true t.id), if_pos (beq_self_eq_true t.id)]
          have hpf : t.is_paused = false := Bool.eq_false_iff.mpr hp
          cases t
          simp only at hpf
          simp only [hpf]
        · rw [if_neg hp, if_neg hp]
          rw [hcu db rfl]
          exact ⟨rfl, rfl, hte⟩
    refine ⟨Or.inr (by rw [hmain.1]; rfl), fun hex => ?_,
      fun _ => ⟨hmain.1, hmain.2.2⟩,
      by rw [hmain.1]; exact fun hh => QuoteResp.noConfusion hh, ?_⟩
    · exfalso
      rcases hex with ⟨st, hjs, hlow⟩
      rw [hjs] at hc
      simp only [Option.map_some', Option.getD_some] at hc
      exact hc hlow
    · show findJob _ jid = some j
      unfold findJob
      rw [hmain.2.1]
      exact hfind

/-- Witness for C5 (amended) on the concrete `Assigned` job with a running
open session: the request answers 500 (never 409 Conflict), the open session
is restored to its pre-request state, and the job row keeps its `Assigned`
status. -/
theorem C5_quote_non_in_progress_witness :
    ((submitJobQuote dbRunning 10 7 none none none 60000).2.status = 400 ∨
      (submitJobQuote dbRunning 10 7 none none none 60000).2.status = 500) ∧
    (submitJobQuote dbRunning 10 7 none none none 60000).2 = .failure ∧
    findOpenSession (submitJobQuote dbRunning 10 7 none none none 60000).1 10 7 =
      findOpenSession dbRunning 10 7 ∧
    (submitJobQuote dbRunning 10 7 none none none 60000).2 ≠ .conflict ∧
    findJob (submitJobQuote dbRunning 10 7 none none none 60000).1 10 =
      some (exJob (some "Assigned")) := by
  have h := C5_quote_non_in_progress dbRunning 10 7 none none none 60000
    (exJob (some "Assigned")) (by decide) (by decide) (by decide)
  have h3 := h.2.2.1 (by decide)
  exact ⟨h.1, h3.1, h3.2, h.2.2.2.1, h.2.2.2.2⟩

/-- Claim C6: a successful submit-job-quote pauses the open session rather
than closing it — the live segment since the last start/resume is banked
into `accumulated_minutes`, `is_paused` becomes true, `end_time` stays null
— and the job's status becomes `Quoted` with the quote payload attached. -/
theorem C6_quote_pauses_session (db : DB) (jid eid : Nat)
    (im pn : Option (List String)) (nt : Option String) (now : Timestamp)
    (j : Job) (t : TimeSession)
    (hj : findJob db jid = some j)
    (hstat : j.job_status = some "In Progress")
    (ht : findOpenSession db jid eid = some t)
    (hrun : t.is_paused = false) :
    (submitJobQuote db jid eid im pn nt now).2 =
      .success { j with job_status := some "Quoted", image_urls := im.getD [],
                        product_names := pn.getD [], notes := nt.getD "" } ∧
    findJob (submitJobQuote db jid eid im pn nt now).1 jid =
      some { j with job_status := some "Quoted", image_urls := im.getD [],
                    product_names := pn.getD [], notes := nt.getD "" } ∧
    findOpenSession (submitJobQuote db jid eid im pn nt now).1 jid eid =
      some { t with
        accumulated_minutes := t.accumulated_minutes +
          minutesBetween now (t.pause_start_time.getD t.start_time),
        is_paused := true, pause_start_time := some now } ∧
    t.end_time = none := by
  have hjp : (j.id == jid) = true := by
    have := List.find?_some hj
    exact this
  have hopen : openFor jid eid t = true := List.find?_some ht
  have htend : t.end_time = none := by
    unfold openFor at hopen
    rw [Bool.and_eq_true, Bool.and_eq_true] at hopen
    exact Option.isNone_iff_eq_none.mp hopen.2
  have hcond : ¬(((j.job_status.map jsToLower).getD "") = "quoted" ∨
      ((j.job_status.map jsToLower).getD "") = "approved") := by
    rw [hstat]; decide
  have hqj : (j.job_status == some "In Progress") = true := by
    rw [hstat]; decide
  have hout : submitJobQuote db jid eid im pn nt now =
      (⟨db.sessions.map (fun s => if s.id == t.id then { s with accumulated_minutes := (t.accumulated_minutes + minutesBetween now (t.pause_start_time.getD t.start_time)), is_paused := true, pause_start_time := some now } else s),
        db.jobs.map (fun x => if x.id == jid && x.job_status == some "In Progress" then { x with job_status := some "Quoted", image_urls := im.getD [], product_names := pn.getD [], notes := nt.getD "" } else x),
        db.customers, db.routes⟩,
       .success { j with job_status := some "Quoted", image_urls := im.getD [], product_names := pn.getD [], notes := nt.getD "" }) := by
    unfold submitJobQuote
    rw [hj]
    simp only [Option.some_bind]
    rw [if_neg hcond, ht]
    simp only [hrun]
    rw [if_pos (by decide)]
    have hfind2 : (updateSession db t.id (fun s => { s with accumulated_minutes := (t.accumulated_minutes + minutesBetween now (t.pause_start_time.getD t.start_time)), is_paused := true, pause_start_time := some now })).jobs.find? (fun x => x.id == jid && x.job_status == some "In Progress") = some j := by
      show db.jobs.find? _ = some j
      exact find?_strengthen _ _ _ j hj hqj
    unfold condUpdateJobInProgress
    rw [hfind2]
    rfl
  refine ⟨by rw [hout], ?_, ?_, htend⟩
  · rw [hout]
    show (db.jobs.map _).find? _ = _
    rw [find?_map_pres _ _ (fun x => by
      by_cases hx : (x.id == jid && x.job_status == some "In Progress") = true
      · rw [if_pos hx]
      · rw [if_neg hx]) db.jobs]
    rw [show db.jobs.find? (fun x => x.id == jid) = some j from hj, Option.map_some']
    rw [if_pos (by rw [Bool.and_eq_true]; exact ⟨hjp, hqj⟩)]
  · rw [hout]
    show (db.sessions.map _).find? (openFor jid eid) = _
    rw [find?_map_pres _ _ (fun x => by
      by_cases hx : (x.id == t.id) = true
      · rw [if_pos hx]; rfl
      · rw [if_neg hx]) db.sessions]
    rw [show db.sessions.find? (openFor jid eid) = some t from ht, Option.map_some']
    rw [if_pos (beq_self_eq_true t.id)]

/-- Witness for C6: on the concrete `In Progress` job with a running open
session started at t=0, submitting a quote at t=60 s banks 1 minute, pauses
the session, leaves it open, and quotes the job. -/
theorem C6_quote_pauses_session_witness :
    (submitJobQuote dbInProgressRunning 10 7 (some ["u1"]) (some ["p1"])
        (some "notes") 60000).2 =
      .success { exJob (some "In Progress") with job_status := some "Quoted", image_urls := ["u1"], product_names := ["p1"], notes := "notes" } ∧
    findOpenSession (submitJobQuote dbInProgressRunning 10 7 (some ["u1"])
        (some ["p1"]) (some "notes") 60000).1 10 7 =
      some { exSession false with accumulated_minutes := 1, is_paused := true, pause_start_time := some 60000 } := by
  have h := C6_quote_pauses_session dbInProgressRunning 10 7 (some ["u1"])
    (some ["p1"]) (some "notes") 60000 (exJob (some "In Progress"))
    (exSession false) (by decide) (by decide) (by decide) (by decide)
  refine ⟨h.1, ?_⟩
  rw [h.2.2.1]
  decide

/-- Behavior of `pause-job` on an open running session: the response banks
the live segment and the stored session is paused with the banked total. -/
theorem pauseJob_after (db : DB) (jid eid : Nat) (now : Timestamp)
    (t : TimeSession) (ht : findOpenSession db jid eid = some t)
    (hrun : t.is_paused = false) :
    (pauseJob db jid eid now).2 =
      .paused (minutesBetween now (t.pause_start_time.getD t.start_time))
        (t.accumulated_minutes + minutesBetween now (t.pause_start_time.getD t.start_time)) ∧
    findOpenSession (pauseJob db jid eid now).1 jid eid =
      some { t with accumulated_minutes := (t.accumulated_minutes + minutesBetween now (t.pause_start_time.getD t.start_time)), is_paused := true, pause_start_time := some now } := by
  have hmain : pauseJob db jid eid now =
      ({ db with sessions := db.sessions.map (fun s => if s.id == t.id then { s with accumulated_minutes := (t.accumulated_minutes + minutesBetween now (t.pause_start_time.getD t.start_time)), is_paused := true, pause_start_time := some now } else s) },
       .paused (minutesBetween now (t.pause_start_time.getD t.start_time))
         (t.accumulated_minutes + minutesBetween now (t.pause_start_time.getD t.start_time))) := by
    unfold pauseJob
    rw [ht]
    simp only [hrun]
    rw [if_neg (by decide)]
    rfl
  refine ⟨by rw [hmain], ?_⟩
  rw [hmain]
  show (db.sessions.map _).find? (openFor jid eid) = _
  rw [find?_map_pres _ _ (fun x => by
    by_cases hx : (x.id == t.id) = true
    · rw [if_pos hx]; rfl
    · rw [if_neg hx]) db.sessions]
  rw [show db.sessions.find? (openFor jid eid) = some t from ht, Option.map_some']
  rw [if_pos (beq_self_eq_true t.id)]

/-- Behavior of `resume-job` on an open paused session: the response reports
the unchanged banked minutes, and the stored session is merely unpaused with
the reference point moved to now — `accumulated_minutes` untouched. -/
theorem resumeJob_after (db : DB) (jid eid : Nat) (now : Timestamp)
    (t : TimeSession) (ht : findOpenSession db jid eid = some t)
    (hp : t.is_paused = true) :
    (∃ sh, (resumeJob db jid eid now).2 = .resumed t.accumulated_minutes sh) ∧
    findOpenSession (resumeJob db jid eid now).1 jid eid =
      some { t with is_paused := false, pause_start_time := some now } := by
  unfold resumeJob
  rw [ht]
  simp only [hp]
  rw [if_neg (by decide)]
  constructor
  · exact ⟨_, rfl⟩
  · have hsess : (if ((findJob (updateSession db t.id (fun s => { s with is_paused := false, pause_start_time := some now })) jid).bind Job.job_status).map jsToLower == some "approved" then updateJob (updateSession db t.id (fun s => { s with is_paused := false, pause_start_time := some now })) jid (fun j => { j with job_status := some "Working" }) else (updateSession db t.id (fun s => { s with is_paused := false, pause_start_time := some now }))).sessions = (updateSession db t.id (fun s => { s with is_paused := false, pause_start_time := some now })).sessions := by
      by_cases hc : (((findJob (updateSession db t.id (fun s => { s with is_paused := false, pause_start_time := some now })) jid).bind Job.job_status).map jsToLower == some "approved") = true
      · rw [if_pos hc]; rfl
      · rw [if_neg hc]
    show (_ : DB).sessions.find? (openFor jid eid) = _
    rw [hsess]
    show (db.sessions.map _).find? (openFor jid eid) = _
    rw [find?_map_pres _ _ (fun x => by
      by_cases hx : (x.id == t.id) = true
      · rw [if_pos hx]; rfl
      · rw [if_neg hx]) db.sessions]
    rw [show db.sessions.find? (openFor jid eid) = some t from ht, Option.map_some']
    rw [if_pos (beq_self_eq_true t.id)]

/-- Claim C4: pausing an open running session banks the minutes elapsed since
the last start/resume reference point into `accumulated_minutes` and marks it
paused; resuming only clears the paused flag and resets the reference point
without changing `accumulated_minutes`; hence after pause–resume–pause the
banked total is exactly the sum of the two running-segment durations. -/
theorem C4_pause_resume_pause (db : DB) (jid eid : Nat) (t1 t2 t3 : Timestamp)
    (e : TimeSession) (hs : findOpenSession db jid eid = some e)
    (hrun : e.is_paused = false) (hacc : e.accumulated_minutes = 0) :
    (pauseJob db jid eid t1).2 =
      .paused (minutesBetween t1 (e.pause_start_time.getD e.start_time))
        (minutesBetween t1 (e.pause_start_time.getD e.start_time)) ∧
    (∃ e1, findOpenSession (pauseJob db jid eid t1).1 jid eid = some e1 ∧
      e1.accumulated_minutes = minutesBetween t1 (e.pause_start_time.getD e.start_time) ∧
      e1.is_paused = true) ∧
    (∃ sh, (resumeJob (pauseJob db jid eid t1).1 jid eid t2).2 =
      .resumed (minutesBetween t1 (e.pause_start_time.getD e.start_time)) sh) ∧
    (∃ e2, findOpenSession (resumeJob (pauseJob db jid eid t1).1 jid eid t2).1 jid eid = some e2 ∧
      e2.accumulated_minutes = minutesBetween t1 (e.pause_start_time.getD e.start_time) ∧
      e2.is_paused = false ∧ e2.pause_start_time = some t2) ∧
    (pauseJob (resumeJob (pauseJob db jid eid t1).1 jid eid t2).1 jid eid t3).2 =
      .paused (minutesBetween t3 t2)
        (minutesBetween t1 (e.pause_start_time.getD e.start_time) + minutesBetween t3 t2) ∧
    (∃ e3, findOpenSession (pauseJob (resumeJob (pauseJob db jid eid t1).1 jid eid t2).1 jid eid t3).1 jid eid = some e3 ∧
      e3.accumulated_minutes =
        minutesBetween t1 (e.pause_start_time.getD e.start_time) + minutesBetween t3 t2 ∧
      e3.is_paused = true ∧ e3.end_time = e.end_time) := by
  obtain ⟨hp1resp, hp1find⟩ := pauseJob_after db jid eid t1 e hs hrun
  rw [hacc, zero_add] at hp1resp hp1find
  obtain ⟨⟨sh, hrresp⟩, hrfind⟩ :=
    resumeJob_after (pauseJob db jid eid t1).1 jid eid t2 _ hp1find rfl
  obtain ⟨hp2resp, hp2find⟩ :=
    pauseJob_after (resumeJob (pauseJob db jid eid t1).1 jid eid t2).1 jid eid t3 _ hrfind rfl
  refine ⟨hp1resp, ⟨_, hp1find, rfl, rfl⟩, ⟨sh, hrresp⟩, ⟨_, hrfind, rfl, rfl, rfl⟩, ?_, ⟨_, hp2find, rfl, rfl, rfl⟩⟩
  exact hp2resp

/-- Witness for C4 on the concrete running session started at t=0: pause at
2 min, resume at 5 min, pause at 8 min — the second pause reports segment 3
and total 5, the stored session holds 2 + 3 = 5 banked minutes. -/
theorem C4_pause_resume_pause_witness :
    (pauseJob dbRunning 10 7 120000).2 = .paused 2 2 ∧
    (pauseJob (resumeJob (pauseJob dbRunning 10 7 120000).1 10 7 300000).1 10 7 480000).2 =
      .paused 3 5 := by
  have h := C4_pause_resume_pause dbRunning 10 7 120000 300000 480000
    (exSession false) (by decide) (by decide) (by decide)
  refine ⟨?_, ?_⟩
  · have := h.1
    rw [this]
    decide
  · have := h.2.2.2.2.1
    rw [this]
    decide

/-- Claim C10: an end-job request with no manual override and a nonzero
signed `time_adjustment_minutes` records
`duration_minutes = max 0 (accumulated + live segment + adjustment)` — the
result is clamped at zero, so the stored duration is never negative even
when the negative adjustment exceeds the tracked time — and
`calculation_method` is recorded as `"adjusted"`. -/
theorem C10_end_job_adjustment_clamped (db : DB) (jid eid : Nat) (adj : Int)
    (reason : String) (now : Timestamp) (e : TimeSession)
    (hs : findOpenSession db jid eid = some e) (hadj : adj ≠ 0) :
    (endJob db jid eid none adj reason now).2 =
      .ended (max 0 (e.accumulated_minutes + (if e.is_paused = true then 0 else minutesBetween now (e.pause_start_time.getD e.start_time)) + adj)) "adjusted" ∧
    (0 : Int) ≤ max 0 (e.accumulated_minutes + (if e.is_paused = true then 0 else minutesBetween now (e.pause_start_time.getD e.start_time)) + adj) ∧
    { e with end_time := some now,
             duration_minutes := some (max 0 (e.accumulated_minutes + (if e.is_paused = true then 0 else minutesBetween now (e.pause_start_time.getD e.start_time)) + adj)),
             is_paused := false,
             accumulated_minutes := (max 0 (e.accumulated_minutes + (if e.is_paused = true then 0 else minutesBetween now (e.pause_start_time.getD e.start_time)) + adj)),
             calculation_method := some "adjusted",
             adjustment_reason := some (if reason ≠ "" then reason else "Time adjusted by " ++ toString adj ++ " minutes"),
             adjustment_minutes := adj } ∈
      (endJob db jid eid none adj reason now).1.sessions := by
  have hmem := List.mem_of_find?_eq_some hs
  have hauto : endJob.autoCalc e adj reason now =
      (max 0 (e.accumulated_minutes + (if e.is_paused = true then 0 else minutesBetween now (e.pause_start_time.getD e.start_time)) + adj), "adjusted",
       (if reason ≠ "" then reason else "Time adjusted by " ++ toString adj ++ " minutes"), adj) := by
    unfold endJob.autoCalc
    rw [if_pos hadj]
    cases hep : e.is_paused
    · simp
    · simp
  unfold endJob
  rw [hs]
  simp only [hauto]
  refine ⟨trivial, le_max_left _ _, ?_⟩
  have hsplit : ∀ dbx : DB,
      (match findJob dbx jid with
        | some jj => updateCustomer dbx jj.customer_id (fun c => { c with status := "completed" })
        | none => dbx).sessions = dbx.sessions := by
    intro dbx; cases findJob dbx jid <;> rfl
  rw [hsplit]
  exact List.mem_map.mpr ⟨e, hmem, by rw [if_pos (beq_self_eq_true e.id)]⟩

/-- Witness for C10: session with 10 banked minutes and a 2-minute live
segment, adjustment −100: the recorded duration is clamped to 0 and the
method is `"adjusted"`. -/
theorem C10_end_job_adjustment_clamped_witness :
    (endJob dbTracked 10 7 none (-100) "" 120000).2 = .ended 0 "adjusted" ∧
    (0 : Int) ≤ (0 : Int) ∧
    (10 : Int) + 2 + (-100) < 0 := by
  have h := C10_end_job_adjustment_clamped dbTracked 10 7 (-100) "" 120000
    ({ exSession false with accumulated_minutes := 10 }) (by decide) (by decide)
  refine ⟨?_, le_refl 0, by decide⟩
  have h1 := h.1
  rw [h1]
  decide

/-- Counterexample to claim C7 as stated: an `in_progress` route with no
linked jobs satisfies "every linked job is completed" vacuously, yet
completing it is rejected (400, "No jobs found in this route") rather than
succeeding — so "succeeds iff every linked job satisfies isJobCompleted" is
false, and the rejection carries HTTP 400, not 409. -/
theorem C7_empty_route_counterexample :
    (completeRoute dbEmptyRouteInProgress 7 5 0).2 = .noJobs ∧
    (completeRoute dbEmptyRouteInProgress 7 5 0).2.status = 400 ∧
    (routeJobs dbEmptyRouteInProgress 5).all (fun j => isJobCompleted j.job_status) = true ∧
    (findRoute dbEmptyRouteInProgress 5 7).map RouteRec.status = some "in_progress" := by
  decide

/-- Claim C7 (amended): completing a route is allowed only when its status is
`in_progress`, and succeeds iff the route has at least one linked job and
every linked job satisfies `isJobCompleted`; otherwise it is rejected with a
400 state-mismatch error which, when jobs are pending, details how many and
which jobs are still pending. -/
theorem C7_route_complete (db : DB) (eid rid : Nat) (now : Timestamp)
    (r : RouteRec) (hr : findRoute db rid eid = some r) :
    (r.status ≠ "in_progress" →
      completeRoute db eid rid now = (db, .statusError r.status) ∧
      (completeRoute db eid rid now).2.status = 400) ∧
    (r.status = "in_progress" →
      ((∃ tc cc, (completeRoute db eid rid now).2 = .completed tc cc) ↔
        (routeJobs db rid ≠ [] ∧
          (routeJobs db rid).all (fun j => isJobCompleted j.job_status) = true)) ∧
      (routeJobs db rid ≠ [] →
        (routeJobs db rid).all (fun j => isJobCompleted j.job_status) = false →
        (completeRoute db eid rid now).2 =
          .pending (routeJobs db rid).length
            ((routeJobs db rid).filter (fun j => isJobCompleted j.job_status)).length
            ((routeJobs db rid).length -
              ((routeJobs db rid).filter (fun j => isJobCompleted j.job_status)).length)
            (((routeJobs db rid).filter (fun j => ¬isJobCompleted j.job_status)).map Job.job_status) ∧
        (completeRoute db eid rid now).2.status = 400)) := by
  constructor
  · intro hne
    have hmain : completeRoute db eid rid now = (db, .statusError r.status) := by
      unfold completeRoute
      simp only [hr]
      rw [if_pos hne]
    exact ⟨hmain, by rw [hmain]; rfl⟩
  · intro hst
    have hle := List.length_filter_le (fun j => isJobCompleted j.job_status) (routeJobs db rid)
    by_cases hempty : (routeJobs db rid).length = 0
    · have hnil : routeJobs db rid = [] := List.length_eq_zero.mp hempty
      have hmain : completeRoute db eid rid now = (db, .noJobs) := by
        unfold completeRoute
        simp only [hr]
        rw [if_neg (not_not_intro hst), if_pos hempty]
      constructor
      · constructor
        · rintro ⟨tc, cc, hcc⟩
          rw [hmain] at hcc
          exact CompleteRouteResp.noConfusion hcc
        · rintro ⟨hne, _⟩
          exact absurd hnil hne
      · intro hne _
        exact absurd hnil hne
    · by_cases hall : (routeJobs db rid).all (fun j => isJobCompleted j.job_status) = true
      · have hceq : ((routeJobs db rid).filter (fun j => isJobCompleted j.job_status)).length =
            (routeJobs db rid).length := (all_iff_filter_length _ _).mp hall
        have hmain : completeRoute db eid rid now =
            (updateRoute db rid (fun x => { x with status := "completed", completed_at := some now }),
             .completed (routeJobs db rid).length
               ((routeJobs db rid).filter (fun j => isJobCompleted j.job_status)).length) := by
          unfold completeRoute
          simp only [hr]
          rw [if_neg (not_not_intro hst), if_neg hempty, if_neg (by rw [hceq]; omega)]
        constructor
        · constructor
          · intro _
            exact ⟨fun h => hempty (by rw [h]; rfl), hall⟩
          · intro _
            exact ⟨_, _, by rw [hmain]⟩
        · intro _ hfalse
          rw [hall] at hfalse
          exact absurd hfalse (by decide)
      · have hallf : (routeJobs db rid).all (fun j => isJobCompleted j.job_status) = false :=
          Bool.eq_false_iff.mpr hall
        have hlt : ((routeJobs db rid).filter (fun j => isJobCompleted j.job_status)).length <
            (routeJobs db rid).length := by
          rcases Nat.lt_or_ge (((routeJobs db rid).filter (fun j => isJobCompleted j.job_status)).length)
            ((routeJobs db rid).length) with h | h
          · exact h
          · exact absurd ((all_iff_filter_length _ _).mpr (le_antisymm hle h)) hall
        have hmain : completeRoute db eid rid now =
            (db, .pending (routeJobs db rid).length
              ((routeJobs db rid).filter (fun j => isJobCompleted j.job_status)).length
              ((routeJobs db rid).length -
                ((routeJobs db rid).filter (fun j => isJobCompleted j.job_status)).length)
              (((routeJobs db rid).filter (fun j => ¬isJobCompleted j.job_status)).map Job.job_status)) := by
          unfold completeRoute
          simp only [hr]
          rw [if_neg (not_not_intro hst), if_neg hempty, if_pos hlt]
        constructor
        · constructor
          · rintro ⟨tc, cc, hcc⟩
            rw [hmain] at hcc
            exact CompleteRouteResp.noConfusion hcc
          · rintro ⟨_, hta⟩
            exact absurd hta hall
        · intro _ _
          exact ⟨by rw [hmain], by rw [hmain]; rfl⟩

/-- Witness for C7 (amended) on the concrete `in_progress` route with two
completed linked jobs: completing succeeds. -/
theorem C7_route_complete_witness :
    (∃ tc cc, (completeRoute dbRouteDone 7 5 99).2 = .completed tc cc) ∧
    (completeRoute { dbRouteDone with routes := [exRoute "scheduled"] } 7 5 99).2.status = 400 := by
  have h := C7_route_complete dbRouteDone 7 5 99 (exRoute "in_progress") (by decide)
  have h2 := C7_route_complete { dbRouteDone with routes := [exRoute "scheduled"] } 7 5 99
    (exRoute "scheduled") (by decide)
  exact ⟨((h.2 rfl).1).mpr (by decide), (h2.1 (by decide)).2⟩

/-- Claim C8: cancelling a route is allowed only from `scheduled` (rejected
with a 400 state-mismatch once `in_progress` or later), and on success it
cascades — every linked job is set to `Cancelled` with `route_id` and
`route_order` cleared, every customer of a linked job is reset to `new` with
`assigned_engineer` and `scheduled_time` cleared, and the route itself is
stamped `cancelled`. -/
theorem C8_route_cancel (db : DB) (eid rid : Nat) (reason : Option String)
    (now : Timestamp) (r : RouteRec) (hr : findRoute db rid eid = some r) :
    (r.status ≠ "scheduled" →
      cancelRoute db eid rid reason now = (db, .statusError r.status) ∧
      (cancelRoute db eid rid reason now).2.status = 400) ∧
    (r.status = "scheduled" →
      (cancelRoute db eid rid reason now).2 = .cancelled (routeJobs db rid).length ∧
      (∀ j ∈ db.jobs, j.route_id = some rid →
        { j with job_status := some "Cancelled", route_id := none, route_order := none } ∈
          (cancelRoute db eid rid reason now).1.jobs) ∧
      (∀ c ∈ db.customers, c.id ∈ (routeJobs db rid).map Job.customer_id →
        { c with status := "new", assigned_engineer := none, scheduled_time := none } ∈
          (cancelRoute db eid rid reason now).1.customers) ∧
      (∃ r', findRoute (cancelRoute db eid rid reason now).1 rid eid = some r' ∧
        r'.status = "cancelled" ∧ r'.cancelled_at = some now)) := by
  constructor
  · intro hne
    have hmain : cancelRoute db eid rid reason now = (db, .statusError r.status) := by
      unfold cancelRoute
      simp only [hr]
      rw [if_pos hne]
    exact ⟨hmain, by rw [hmain]; rfl⟩
  · intro hst
    have hmain : cancelRoute db eid rid reason now =
        ((if (routeJobs db rid).map Job.customer_id ≠ [] then
            (⟨db.sessions,
              db.jobs.map (fun j => if j.route_id == some rid then { j with job_status := some "Cancelled", route_id := none, route_order := none } else j),
              db.customers.map (fun c => if ((routeJobs db rid).map Job.customer_id).contains c.id then { c with status := "new", assigned_engineer := none, scheduled_time := none } else c),
              db.routes.map (fun x => if x.id == rid then { x with status := "cancelled", cancelled_at := some now, cancellation_reason := reason.bind (fun s => if s = "" then none else some s) } else x)⟩ : DB)
          else
            (⟨db.sessions,
              db.jobs.map (fun j => if j.route_id == some rid then { j with job_status := some "Cancelled", route_id := none, route_order := none } else j),
              db.customers,
              db.routes.map (fun x => if x.id == rid then { x with status := "cancelled", cancelled_at := some now, cancellation_reason := reason.bind (fun s => if s = "" then none else some s) } else x)⟩ : DB)),
         .cancelled (routeJobs db rid).length) := by
      unfold cancelRoute
      simp only [hr]
      rw [if_neg (not_not_intro hst)]
      rfl
    refine ⟨by rw [hmain], ?_, ?_, ?_⟩
    · intro j hj hlink
      rw [hmain]
      by_cases hc : (routeJobs db rid).map Job.customer_id ≠ []
      · rw [if_pos hc]
        exact List.mem_map.mpr ⟨j, hj, by rw [if_pos (by rw [hlink]; exact beq_self_eq_true _)]⟩
      · rw [if_neg hc]
        exact List.mem_map.mpr ⟨j, hj, by rw [if_pos (by rw [hlink]; exact beq_self_eq_true _)]⟩
    · intro c hc hcid
      have hne : (routeJobs db rid).map Job.customer_id ≠ [] :=
        List.ne_nil_of_mem hcid
      rw [hmain]
      rw [if_pos hne]
      exact List.mem_map.mpr ⟨c, hc, by rw [if_pos (List.elem_iff.mpr hcid)]⟩
    · rw [hmain]
      refine ⟨{ r with status := "cancelled", cancelled_at := some now, cancellation_reason := reason.bind (fun s => if s = "" then none else some s) }, ?_, rfl, rfl⟩
      have hid : (r.id == rid) = true := by
        have hh := List.find?_some hr
        rw [Bool.and_eq_true] at hh
        exact hh.1
      by_cases hc : (routeJobs db rid).map Job.customer_id ≠ []
      · rw [if_pos hc]
        show (db.routes.map _).find? _ = _
        rw [find?_map_pres _ _ (fun x => by
          by_cases hx : (x.id == rid) = true
          · rw [if_pos hx]
          · rw [if_neg hx]) db.routes]
        rw [show db.routes.find? (fun x => x.id == rid && x.engineer_id == eid) = some r from hr,
          Option.map_some', if_pos hid]
      · rw [if_neg hc]
        show (db.routes.map _).find? _ = _
        rw [find?_map_pres _ _ (fun x => by
          by_cases hx : (x.id == rid) = true
          · rw [if_pos hx]
          · rw [if_neg hx]) db.routes]
        rw [show db.routes.find? (fun x => x.id == rid && x.engineer_id == eid) = some r from hr,
          Option.map_some', if_pos hid]

/-- Witness for C8 on the concrete `scheduled` route with three linked jobs
(the spec's example): cancel succeeds with 3 jobs cancelled, each job row is
cancelled and unlinked, each customer is reset to `new`. -/
theorem C8_route_cancel_witness :
    (cancelRoute dbSched3 7 5 (some "w") 0).2 = .cancelled 3 ∧
    { exRouteJob 12 21 (some "Assigned") with job_status := some "Cancelled", route_id := none, route_order := none } ∈
      (cancelRoute dbSched3 7 5 (some "w") 0).1.jobs ∧
    { exCustomerN 21 with status := "new", assigned_engineer := none, scheduled_time := none } ∈
      (cancelRoute dbSched3 7 5 (some "w") 0).1.customers ∧
    (cancelRoute { dbSched3 with routes := [exRoute "in_progress"] } 7 5 none 0).2.status = 400 := by
  have h := C8_route_cancel dbSched3 7 5 (some "w") 0 (exRoute "scheduled") (by decide)
  have h2 := C8_route_cancel { dbSched3 with routes := [exRoute "in_progress"] } 7 5 none 0
    (exRoute "in_progress") (by decide)
  refine ⟨?_, ?_, ?_, (h2.1 (by decide)).2⟩
  · have := (h.2 rfl).1
    rw [this]
    decide
  · exact (h.2 rfl).2.1 (exRouteJob 12 21 (some "Assigned")) (by decide) (by decide)
  · exact (h.2 rfl).2.2.1 (exCustomerN 21) (by decide) (by decide)

/-- The open-session invariant only depends on the sessions list. -/
theorem atMostOneOpen_of_sessions_eq (d1 d2 : DB) (h : d2.sessions = d1.sessions)
    (hinv : atMostOneOpen d1) : atMostOneOpen d2 := by
  intro jid eid
  show (d2.sessions.filter _).length ≤ 1
  rw [h]
  exact hinv jid eid

/-- Mapping a rewrite over the sessions that never turns a closed or
foreign row into an open row of a pair preserves the invariant. -/
theorem atMostOneOpen_map (db : DB) (hinv : atMostOneOpen db)
    (g : TimeSession → TimeSession)
    (hg : ∀ jid eid s, openFor jid eid (g s) = true → openFor jid eid s = true) :
    atMostOneOpen { db with sessions := db.sessions.map g } := by
  intro jid eid
  exact le_trans (filter_map_length_le g _ (hg jid eid) db.sessions) (hinv jid eid)

/-- Inserting a fresh open row for a pair that currently has no open row
preserves the invariant. -/
theorem atMostOneOpen_insert (db : DB) (hinv : atMostOneOpen db)
    (entry : TimeSession)
    (hnone : findOpenSession db entry.job_id entry.engineer_id = none) :
    atMostOneOpen { db with sessions := entry :: db.sessions } := by
  intro jid eid
  show (List.filter (openFor jid eid) (entry :: db.sessions)).length ≤ 1
  by_cases hmatch : openFor jid eid entry = true
  · rw [List.filter_cons_of_pos hmatch]
    have hpair : entry.job_id = jid ∧ entry.engineer_id = eid := by
      unfold openFor at hmatch
      rw [Bool.and_eq_true, Bool.and_eq_true] at hmatch
      exact ⟨eq_of_beq hmatch.1.1, eq_of_beq hmatch.1.2⟩
    have hn : db.sessions.filter (openFor jid eid) = [] := by
      rw [List.filter_eq_nil_iff]
      intro x hx hpx
      have hfn := List.find?_eq_none.mp hnone x hx
      rw [hpair.1, hpair.2] at hfn
      exact hfn hpx
    rw [hn]
    exact Nat.le_refl 1
  · rw [List.filter_cons_of_neg hmatch]
    exact hinv jid eid

/-- `pause-job` preserves the open-session invariant. -/
theorem inv_after_pause (db : DB) (h : atMostOneOpen db) (jid eid : Nat)
    (now : Timestamp) : atMostOneOpen (pauseJob db jid eid now).1 := by
  unfold pauseJob
  cases hfo : findOpenSession db jid eid with
  | none => exact h
  | some e =>
    by_cases hp : e.is_paused = true
    · simp only [if_pos hp]; exact h
    · simp only [if_neg hp]
      exact atMostOneOpen_map db h _ (fun jid' eid' s => by
        by_cases hx : (s.id == e.id) = true
        · rw [if_pos hx]; exact fun hh => hh
        · rw [if_neg hx]; exact fun hh => hh)

/-- `resume-job` preserves the open-session invariant. -/
theorem inv_after_resume (db : DB) (h : atMostOneOpen db) (jid eid : Nat)
    (now : Timestamp) : atMostOneOpen (resumeJob db jid eid now).1 := by
  unfold resumeJob
  cases hfo : findOpenSession db jid eid with
  | none => exact h
  | some e =>
    by_cases hp : e.is_paused = true
    · simp only [if_neg (not_not_intro hp)]
      have hbase : atMostOneOpen (updateSession db e.id
          (fun s => { s with is_paused := false, pause_start_time := some now })) :=
        atMostOneOpen_map db h _ (fun jid' eid' s => by
          by_cases hx : (s.id == e.id) = true
          · rw [if_pos hx]; exact fun hh => hh
          · rw [if_neg hx]; exact fun hh => hh)
      by_cases hap : (((findJob (updateSession db e.id (fun s => { s with is_paused := false, pause_start_time := some now })) jid).bind Job.job_status).map jsToLower == some "approved") = true
      · simp only [if_pos hap]
        exact atMostOneOpen_of_sessions_eq _ _ rfl hbase
      · simp only [if_neg hap]
        exact hbase
    · simp only [if_pos hp]; exact h

/-- `end-job` preserves the open-session invariant (it can only close
rows). -/
theorem inv_after_end (db : DB) (h : atMostOneOpen db) (jid eid : Nat)
    (manual : Option Int) (adj : Int) (reason : String) (now : Timestamp) :
    atMostOneOpen (endJob db jid eid manual adj reason now).1 := by
  unfold endJob
  cases hfo : findOpenSession db jid eid with
  | none => exact h
  | some e =>
    have hbase : ∀ f : TimeSession → TimeSession,
        (∀ s, (f s).job_id = s.job_id) → (∀ s, (f s).engineer_id = s.engineer_id) →
        (∀ s, (f s).end_time = some now) →
        atMostOneOpen (updateSession db e.id f) := by
      intro f hfj hfe hfc
      refine atMostOneOpen_map db h _ (fun jid' eid' s => ?_)
      by_cases hx : (s.id == e.id) = true
      · rw [if_pos hx]
        intro hh
        unfold openFor at hh
        rw [Bool.and_eq_true, Bool.and_eq_true] at hh
        rw [hfc s] at hh
        simp at hh
      · rw [if_neg hx]; exact fun hh => hh
    have hout : atMostOneOpen (updateSession db e.id (fun s =>
        { s with end_time := some now,
                 duration_minutes := some (match manual with
                   | some m => if m ≥ 0 then (m, "manual_override", if reason ≠ "" then reason else "Manual time entry by engineer", (0 : Int)) else endJob.autoCalc e adj reason now
                   | none => endJob.autoCalc e adj reason now).1,
                 is_paused := false,
                 accumulated_minutes := (match manual with
                   | some m => if m ≥ 0 then (m, "manual_override", if reason ≠ "" then reason else "Manual time entry by engineer", (0 : Int)) else endJob.autoCalc e adj reason now
                   | none => endJob.autoCalc e adj reason now).1,
                 calculation_method := some (match manual with
                   | some m => if m ≥ 0 then (m, "manual_override", if reason ≠ "" then reason else "Manual time entry by engineer", (0 : Int)) else endJob.autoCalc e adj reason now
                   | none => endJob.autoCalc e adj reason now).2.1,
                 adjustment_reason := some (match manual with
                   | some m => if m ≥ 0 then (m, "manual_override", if reason ≠ "" then reason else "Manual time entry by engineer", (0 : Int)) else endJob.autoCalc e adj reason now
                   | none => endJob.autoCalc e adj reason now).2.2.1,
                 adjustment_minutes := (match manual with
                   | some m => if m ≥ 0 then (m, "manual_override", if reason ≠ "" then reason else "Manual time entry by engineer", (0 : Int)) else endJob.autoCalc e adj reason now
                   | none => endJob.autoCalc e adj reason now).2.2.2 })) :=
      hbase _ (fun s => rfl) (fun s => rfl) (fun s => rfl)
    have hsplit : ∀ dbx : DB,
        (match findJob dbx jid with
          | some jj => updateCustomer dbx jj.customer_id (fun c => { c with status := "completed" })
          | none => dbx).sessions = dbx.sessions := by
      intro dbx; cases findJob dbx jid <;> rfl
    refine atMostOneOpen_of_sessions_eq _ _ ?_ hout
    rw [hsplit]
    rfl

/-- `submit-job-quote` preserves the open-session invariant (it can only
pause the open row — or roll that pause back — never insert or reopen a
row). -/
theorem inv_after_quote (db : DB) (h : atMostOneOpen db) (jid eid : Nat)
    (im pn : Option (List String)) (nt : Option String) (now : Timestamp) :
    atMostOneOpen (submitJobQuote db jid eid im pn nt now).1 := by
  unfold submitJobQuote
  by_cases hc : (((findJob db jid).bind Job.job_status).map jsToLower).getD "" = "quoted" ∨
      (((findJob db jid).bind Job.job_status).map jsToLower).getD "" = "approved"
  · simp only [if_pos hc]; exact h
  · simp only [if_neg hc]
    have hcond : ∀ db1 : DB, atMostOneOpen db1 →
        atMostOneOpen (condUpdateJobInProgress db1 jid (fun x =>
          { x with job_status := some "Quoted", image_urls := im.getD [],
                   product_names := pn.getD [], notes := nt.getD "" })).1 := by
      intro db1 h1
      unfold condUpdateJobInProgress
      cases hfind : List.find? (fun x => x.id == jid && x.job_status == some "In Progress") db1.jobs with
      | none => exact h1
      | some jj => exact atMostOneOpen_of_sessions_eq db1 _ rfl h1
    repeat' split
    all_goals first
      | exact h
      | exact hcond db h
      | (refine hcond _ (atMostOneOpen_map db h _ (fun jid2 eid2 s => ?_))
         split
         · exact fun hh => hh
         · exact fun hh => hh)
      | (refine atMostOneOpen_map _ ?_ _ (fun jid2 eid2 s => by
            split
            · exact fun hh => hh
            · exact fun hh => hh)
         first
           | exact hcond db h
           | (refine hcond _ (atMostOneOpen_map db h _ (fun jid2 eid2 s => ?_))
              split
              · exact fun hh => hh
              · exact fun hh => hh))

/-- `start-job` preserves the open-session invariant: on an existing open
row it resumes or rejects; it inserts only when the pair has no open row. -/
theorem inv_after_start (db : DB) (h : atMostOneOpen db) (jid eid : Nat)
    (engLat engLng : Option ℚ) (ext : StartJobExt) (fid : Nat) :
    atMostOneOpen (startJob db jid eid engLat engLng ext fid).1 := by
  unfold startJob
  cases hfo : findOpenSession db jid eid with
  | some e =>
    by_cases hp : e.is_paused = true
    · simp only [if_pos hp]
      exact atMostOneOpen_map db h _ (fun jid' eid' s => by
        by_cases hx : (s.id == e.id) = true
        · rw [if_pos hx]; exact fun hh => hh
        · rw [if_neg hx]; exact fun hh => hh)
    · simp only [if_neg hp]; exact h
  | none =>
    cases hjob : findJob db jid with
    | none => exact h
    | some job =>
      by_cases hq : (job.job_status.map jsToLower == some "quoted") = true
      · simp only [if_pos hq]; exact h
      · simp only [if_neg hq]
        cases hcust : findCustomer db job.customer_id with
        | none => exact h
        | some cust =>
          by_cases hl1 : (numFalsy engLat || numFalsy engLng) = true
          · simp only [if_pos hl1]; exact h
          · simp only [if_neg hl1]
            by_cases hl2 : (numFalsy job.customer_latitude || numFalsy job.customer_longitude) = true
            · simp only [if_pos hl2]; exact h
            · simp only [if_neg hl2]
              repeat' split
              all_goals first
                | exact h
                | exact atMostOneOpen_of_sessions_eq _ _ rfl
                    (atMostOneOpen_insert db h _ hfo)

/-- Claim C1: for every (job_id, engineer_id) pair, at most one open
(`end_time = null`) session exists at any observed instant — each of the
five mutating handlers preserves the invariant; and `start-job` on a pair
that already has an open session resumes it when paused (inserting nothing)
or rejects the request when running (changing nothing), so no operation
ever creates a duplicate open session for a pair. -/
theorem C1_open_session_invariant (db : DB) (hinv : atMostOneOpen db) :
    (∀ jid eid engLat engLng ext fid,
      atMostOneOpen (startJob db jid eid engLat engLng ext fid).1) ∧
    (∀ jid eid now, atMostOneOpen (pauseJob db jid eid now).1) ∧
    (∀ jid eid now, atMostOneOpen (resumeJob db jid eid now).1) ∧
    (∀ jid eid manual adj reason now,
      atMostOneOpen (endJob db jid eid manual adj reason now).1) ∧
    (∀ jid eid im pn nt now,
      atMostOneOpen (submitJobQuote db jid eid im pn nt now).1) ∧
    (∀ jid eid engLat engLng ext fid e, findOpenSession db jid eid = some e →
      (e.is_paused = true →
        (startJob db jid eid engLat engLng ext fid).2 = .resumed e ∧
        (startJob db jid eid engLat engLng ext fid).1.sessions.length =
          db.sessions.length) ∧
      (e.is_paused = false →
        startJob db jid eid engLat engLng ext fid = (db, .alreadyActive))) := by
  refine ⟨fun jid eid engLat engLng ext fid => inv_after_start db hinv jid eid engLat engLng ext fid,
    fun jid eid now => inv_after_pause db hinv jid eid now,
    fun jid eid now => inv_after_resume db hinv jid eid now,
    fun jid eid manual adj reason now => inv_after_end db hinv jid eid manual adj reason now,
    fun jid eid im pn nt now => inv_after_quote db hinv jid eid im pn nt now,
    fun jid eid engLat engLng ext fid e hfo => ⟨fun hp => ?_, fun hp => ?_⟩⟩
  · have hmain : startJob db jid eid engLat engLng ext fid =
        (updateSession db e.id (fun s => { s with is_paused := false, pause_start_time := some ext.now }),
         .resumed e) := by
      unfold startJob
      simp only [hfo]
      rw [if_pos hp]
    rw [hmain]
    exact ⟨rfl, List.length_map db.sessions _⟩
  · unfold startJob
    simp only [hfo]
    rw [if_neg (by rw [hp]; decide)]

/-- Witness for C1 on the concrete store holding one open paused session:
the invariant is preserved by a pause and by a start, and the start on the
existing paused pair resumes it without inserting a row. -/
theorem C1_open_session_invariant_witness :
    atMostOneOpen (pauseJob dbQuotedPaused 10 7 60000).1 ∧
    (startJob dbQuotedPaused 10 7 (some 1) (some 1) exExt 99).2 =
      .resumed (exSession true) ∧
    (startJob dbQuotedPaused 10 7 (some 1) (some 1) exExt 99).1.sessions.length =
      dbQuotedPaused.sessions.length := by
  have hinv : atMostOneOpen dbQuotedPaused := by
    intro jid eid
    exact le_trans (List.length_filter_le _ _) (by decide)
  have h := C1_open_session_invariant dbQuotedPaused hinv
  refine ⟨h.2.1 10 7 60000, ?_, ?_⟩
  · exact ((h.2.2.2.2.2 10 7 (some 1) (some 1) exExt 99 (exSession true) (by decide)).1 (by decide)).1
  · exact ((h.2.2.2.2.2 10 7 (some 1) (some 1) exExt 99 (exSession true) (by decide)).1 (by decide)).2

end KeptCold
